import Mathlib

/-!
Verification development for the airdrop-scanner scan orchestration and
detection engine.  The Python source under `app/` is shallowly embedded:

* pure functions become Lean functions over the same data;
* the unreliable RPC/HTTP environment (per-call outcomes, the wall clock,
  date formatting by the `datetime` library) is passed in explicitly as an
  environment value, so theorems quantify over every possible sequence of
  external outcomes;
* Python `str | None` fields become `Option String`; Python truthiness of
  such a field (`if s:`) is `s ≠ None` and `s ≠ ""`;
* Python `int(v)` (raising on bad input, caught by `_safe_int`) is modelled
  by `pyInt`, an executable sign-and-digits parser;
* calendar dates are modelled by their day number (an `Int`), the parsing
  chart `_parse_date : str → datetime` being the obvious injection;
* floats appear only as the protocol weight and time comparisons, both
  modelled by `ℚ` (all concrete values in the source and in the claims are
  small dyadics, on which Python float arithmetic is exact).
-/

namespace AirdropScanner

/-- Python whitespace for `str.strip()` (the ASCII whitespace characters;
addresses in the catalog are ASCII). -/
def isSpaceChar (c : Char) : Bool :=
  c = ' ' ∨ c = '\t' ∨ c = '\n' ∨ c = '\r' ∨ c = '\x0b' ∨ c = '\x0c'

/-- Python `str.strip()`: drop leading and trailing whitespace. -/
def pyStrip (s : String) : String :=
  ⟨((s.data.dropWhile isSpaceChar).reverse.dropWhile isSpaceChar).reverse⟩

/-- Truthiness of a Python `str | None` value: not `None` and not `""`. -/
def strTruthy : Option String → Bool
  | none => false
  | some v => v ≠ ""

/-- Python `int(str)`, restricted to an optional sign followed by decimal
digits (every marker string the scanner produces is `str(int)`); anything
else fails to `none`. -/
def parseNatAux : List Char → Nat → Option Nat
  | [], acc => some acc
  | c :: cs, acc =>
    if c.isDigit then parseNatAux cs (acc * 10 + (c.toNat - 48)) else none

/-- Python `int(str)` on a whole string, `ValueError` mapped to `none`. -/
def pyInt (s : String) : Option Int :=
  match s.data with
  | [] => none
  | '-' :: cs => if cs.isEmpty then none else (parseNatAux cs 0).map (fun n => -(n : Int))
  | '+' :: cs => if cs.isEmpty then none else (parseNatAux cs 0).map (fun n => (n : Int))
  | cs => (parseNatAux cs 0).map (fun n => (n : Int))

/-- `_safe_int` (app/services/scanner.py): `int(val)` with failures mapped
to `None`. -/
def safe_int : Option String → Option Int
  | none => none
  | some v => pyInt v

/-- Integer value of an optional chain-position marker string. -/
def markerVal (o : Option String) : Option Int := safe_int o

/-- `DetectionResult` (app/detectors/base.py): the mutable per-protocol
accumulator, embedded as an immutable record threaded through the loops. -/
structure DetectionResult where
  interacted : Bool := false
  interaction_count : Nat := 0
  signal_types : List String := []
  first_seen : Option String := none
  last_seen : Option String := none
  rpc_calls_used : Nat := 0
  deriving Repr, DecidableEq

/-- The `first_seen` update of `_merge_result`: adopt the source marker when
it is truthy, parses as an integer, and is strictly smaller than the parsed
target marker (or the target does not parse). -/
def mergeFirstSeen (tgt src : Option String) : Option String :=
  if strTruthy src then
    match safe_int src, safe_int tgt with
    | some sv, none => src
    | some sv, some tv => if sv < tv then src else tgt
    | none, _ => tgt
  else tgt

/-- The `last_seen` update of `_merge_result`: symmetric, strictly larger. -/
def mergeLastSeen (tgt src : Option String) : Option String :=
  if strTruthy src then
    match safe_int src, safe_int tgt with
    | some sv, none => src
    | some sv, some tv => if tv < sv then src else tgt
    | none, _ => tgt
  else tgt

/-- `_merge_result` (app/services/scanner.py): no-op when the source is not
interacted; otherwise OR the flag, sum counts, append signal types, and
track marker extremes. -/
def merge_result (target source : DetectionResult) : DetectionResult :=
  if source.interacted then
    { target with
      interacted := true
      interaction_count := target.interaction_count + source.interaction_count
      signal_types := target.signal_types ++ source.signal_types
      first_seen := mergeFirstSeen target.first_seen source.first_seen
      last_seen := mergeLastSeen target.last_seen source.last_seen }
  else target

/-! ### Scoring engine (app/services/scoring.py) -/

/-- The interaction-count component of `calculate_strength` (0–3 points). -/
def countPoints (count : Nat) : Nat :=
  if count ≥ 10 then 3 else if count ≥ 5 then 2 else if count ≥ 2 then 1 else 0

/-- `len({t for t in types if t != "unknown_interaction"})`. -/
def typeDiversity (types : List String) : Nat :=
  ((types.filter (fun t => t ≠ "unknown_interaction")).dedup).length

/-- The type-diversity component of `calculate_strength` (0–3 points). -/
def diversityPoints (types : List String) : Nat :=
  let d := typeDiversity types
  if d ≥ 3 then 3 else if d ≥ 2 then 2 else if d ≥ 1 then 1 else 0

/-- The recency component (0–3 points); `days_since_last` is 999 when
`last_seen` failed to parse, exactly as in the source. -/
def recencyPoints (last_seen : Option Int) (now : Int) : Nat :=
  let days_since_last : Int := match last_seen with
    | some l => now - l
    | none => 999
  if days_since_last ≤ 7 then 3
  else if days_since_last ≤ 30 then 2
  else if days_since_last ≤ 90 then 1
  else 0

/-- The duration bonus (0–1 point): both markers present and spanning at
least 30 days. -/
def durationPoints (first_seen last_seen : Option Int) : Nat :=
  match first_seen, last_seen with
  | some f, some l => if l - f ≥ 30 then 1 else 0
  | _, _ => 0

/-- `calculate_strength` (app/services/scoring.py).  Dates are passed
already parsed (`_parse_date` returns `None` for missing or malformed
dates); `now` is the current day number. -/
def calculate_strength (count : Nat) (types : List String)
    (first_seen last_seen : Option Int) (now : Int)
    (protocol_weight : ℚ) : String :=
  if count = 0 then "none"
  else
    let score : Nat :=
      countPoints count + diversityPoints types
        + recencyPoints last_seen now + durationPoints first_seen last_seen
    let scaled : ℚ := (score : ℚ) * protocol_weight
    if scaled ≥ 7 then "strong"
    else if scaled ≥ 4 then "moderate"
    else if scaled ≥ 1 then "weak"
    else "none"

/-- The strength classifier exactly as claim C7 words it: four capped
components (missing `lastSeen` treated as very old, i.e. 0 recency points),
scaled by the weight, classified with inclusive lower bounds. -/
def strengthClaimC7 (count : Nat) (types : List String)
    (first_seen last_seen : Option Int) (now : Int)
    (protocol_weight : ℚ) : String :=
  if count = 0 then "none"
  else
    let c : Nat := if count ≥ 10 then 3 else if count ≥ 5 then 2
      else if count ≥ 2 then 1 else 0
    let d : Nat := diversityPoints types
    let r : Nat := match last_seen with
      | none => 0
      | some l =>
        if now - l ≤ 7 then 3 else if now - l ≤ 30 then 2
        else if now - l ≤ 90 then 1 else 0
    let b : Nat := match first_seen, last_seen with
      | some f, some l => if l - f ≥ 30 then 1 else 0
      | _, _ => 0
    let scaled : ℚ := ((c + d + r + b : Nat) : ℚ) * protocol_weight
    if scaled ≥ 7 then "strong"
    else if scaled ≥ 4 then "moderate"
    else if scaled ≥ 1 then "weak"
    else "none"

/-! ### Protocol catalog model (app/models/protocol.py) -/

/-- `DetectionMode` enumeration. -/
inductive DetectionMode where
  | event_topic
  | transfer_to_contract
  | tx_to_contract
  | program_id_match
  | hybrid
  deriving Repr, DecidableEq

/-- The `.value` of a `DetectionMode` member. -/
def DetectionMode.value : DetectionMode → String
  | .event_topic => "event_topic"
  | .transfer_to_contract => "transfer_to_contract"
  | .tx_to_contract => "tx_to_contract"
  | .program_id_match => "program_id_match"
  | .hybrid => "hybrid"

/-- `DetectionMode(mode_str)`: the enum constructor, `ValueError` mapped to
`none`. -/
def DetectionMode.ofString : String → Option DetectionMode
  | "event_topic" => some .event_topic
  | "transfer_to_contract" => some .transfer_to_contract
  | "tx_to_contract" => some .tx_to_contract
  | "program_id_match" => some .program_id_match
  | "hybrid" => some .hybrid
  | _ => none

/-- `EventSignatureConfig`. -/
structure EventSignatureConfig where
  topic0 : String
  user_address_position : String
  interaction_type : String
  deriving Repr, DecidableEq

/-- One entry of `DetectionConfig.sub_detectors` (a Python dict; only its
`"mode"` key is read, via `.get`, so only that key is modelled). -/
structure SubDetectorSpec where
  mode : Option String
  deriving Repr, DecidableEq

/-- `DetectionConfig`. -/
structure DetectionConfig where
  event_signatures : Option (List EventSignatureConfig) := none
  token_contracts : Option (List String) := none
  interaction_type : Option String := none
  instruction_discriminators : Option (List String) := none
  sub_detectors : Option (List SubDetectorSpec) := none
  deriving Repr, DecidableEq

/-- `ContractEntry`. -/
structure ContractEntry where
  address : String
  label : String := ""
  type : String := ""
  detection_mode : DetectionMode
  detection_config : DetectionConfig := {}
  deriving Repr, DecidableEq

/-- `Protocol` (the fields the scan engine reads; `category` is kept as its
string `.value`). -/
structure Protocol where
  id : String
  name : String := ""
  chain : String := ""
  category : String := "dex"
  has_token : Bool
  token_symbol : Option String := none
  protocol_weight : ℚ := 1
  contracts : List ContractEntry := []
  deriving Repr, DecidableEq

/-! ### EVM detectors (app/detectors/)

Each `eth_getLogs` call is abstracted by an oracle from the ordinal of the
call within the current `detect` invocation to its outcome: `none` models a
raised transport exception, `some logs` the returned log list.  The theorems
quantify over every oracle, which is exactly the claims' "any sequence of
per-call outcomes".  Of each log the detectors read only the block number
(already parsed from its hex string) and the transaction hash. -/

/-- A returned log entry, reduced to the fields the detectors read. -/
structure Log where
  blockNumber : Int
  transactionHash : Option String := none
  deriving Repr, DecidableEq

/-- Outcome oracle for one detector invocation. -/
def RpcOracle : Type := Nat → Option (List Log)

/-- Minimum block number of a non-empty log list (`min(block_nums)`). -/
def blockMin (logs : List Log) : Int :=
  match logs.map Log.blockNumber with
  | [] => 0
  | x :: xs => xs.foldl min x

/-- Maximum block number of a non-empty log list (`max(block_nums)`). -/
def blockMax (logs : List Log) : Int :=
  match logs.map Log.blockNumber with
  | [] => 0
  | x :: xs => xs.foldl max x

/-- The matched-logs update shared by `EventTopicDetector.detect` and
`TransferToContractDetector.detect`: set the flag, add the count, append the
interaction type if new, and push the min/max block into the markers.
`rpc_calls_used` is not touched here. -/
def applyChunkLogs (interactionType : String) (logs : List Log)
    (r : DetectionResult) : DetectionResult :=
  let minB := blockMin logs
  let maxB := blockMax logs
  let curFirst := safe_int r.first_seen
  let curLast := safe_int r.last_seen
  { r with
    interacted := true
    interaction_count := r.interaction_count + logs.length
    signal_types :=
      if interactionType ∈ r.signal_types then r.signal_types
      else r.signal_types ++ [interactionType]
    first_seen :=
      match curFirst with
      | none => some (toString minB)
      | some c => if minB < c then some (toString minB) else r.first_seen
    last_seen :=
      match curLast with
      | none => some (toString maxB)
      | some c => if c < maxB then some (toString maxB) else r.last_seen }

/-- The descending chunk loop of `EventTopicDetector.detect`: one RPC call
per chunk (charged on failure as well), matches folded into the accumulator,
stopping when the window or the budget is exhausted. -/
def eventChunkLoop (oracle : RpcOracle) (interactionType : String)
    (fromB chunkSize : Int) (budget : Nat)
    (chunkEnd : Int) (r : DetectionResult) : DetectionResult :=
  if h : fromB ≤ chunkEnd ∧ r.rpc_calls_used < budget then
    let chunkStart := max (chunkEnd - chunkSize + 1) fromB
    match oracle r.rpc_calls_used with
    | none =>
      eventChunkLoop oracle interactionType fromB chunkSize budget
        (chunkStart - 1) { r with rpc_calls_used := r.rpc_calls_used + 1 }
    | some logs =>
      let r1 := { r with rpc_calls_used := r.rpc_calls_used + 1 }
      let r2 := if logs.isEmpty then r1 else applyChunkLogs interactionType logs r1
      eventChunkLoop oracle interactionType fromB chunkSize budget
        (chunkStart - 1) r2
  else r
termination_by budget - r.rpc_calls_used
decreasing_by
  all_goals simp [applyChunkLogs]
  all_goals first
    | omega
    | (split <;> simp <;> omega)

/-- The signature loop of `EventTopicDetector.detect`. -/
def eventSigsLoop (oracle : RpcOracle) (fromB toB chunkSize : Int)
    (budget : Nat) : List EventSignatureConfig → DetectionResult → DetectionResult
  | [], r => r
  | sig :: rest, r =>
    if budget ≤ r.rpc_calls_used then r
    else eventSigsLoop oracle fromB toB chunkSize budget rest
      (eventChunkLoop oracle sig.interaction_type fromB chunkSize budget toB r)

namespace EventTopicDetector

/-- `EventTopicDetector.detect` (app/detectors/event_topic.py).  The topic
filter built from the padded user address is part of the request payload,
which the oracle abstracts, so it does not appear here. -/
def detect (oracle : RpcOracle) (contract : ContractEntry)
    (fromB toB chunkSize : Int) (budget : Nat) : DetectionResult :=
  match contract.detection_config.event_signatures with
  | none => {}
  | some [] => {}
  | some sigs => eventSigsLoop oracle fromB toB chunkSize budget sigs {}

end EventTopicDetector

/-- The descending chunk loop shared (textually identical in the source) by
`TransferToContractDetector.detect` and both queries of
`TxToContractDetector.detect`: each chunk costs one call, successes extend
the collected list, failures are charged and skipped. -/
def collectChunkLoop (oracle : RpcOracle) (fromB chunkSize : Int)
    (budget : Nat) (chunkEnd : Int) (r : DetectionResult)
    (acc : List Log) : DetectionResult × List Log :=
  if h : fromB ≤ chunkEnd ∧ r.rpc_calls_used < budget then
    let chunkStart := max (chunkEnd - chunkSize + 1) fromB
    match oracle r.rpc_calls_used with
    | none =>
      collectChunkLoop oracle fromB chunkSize budget (chunkStart - 1)
        { r with rpc_calls_used := r.rpc_calls_used + 1 } acc
    | some logs =>
      collectChunkLoop oracle fromB chunkSize budget (chunkStart - 1)
        { r with rpc_calls_used := r.rpc_calls_used + 1 } (acc ++ logs)
  else (r, acc)
termination_by budget - r.rpc_calls_used
decreasing_by
  all_goals simp
  all_goals omega

/-- The token-contract loop of `TransferToContractDetector.detect`. -/
def transferTokensLoop (oracle : RpcOracle) (interactionType : String)
    (fromB toB chunkSize : Int) (budget : Nat) :
    List String → DetectionResult → DetectionResult
  | [], r => r
  | _token :: rest, r =>
    if budget ≤ r.rpc_calls_used then r
    else
      let (r1, logs) := collectChunkLoop oracle fromB chunkSize budget toB r []
      let r2 := if logs.isEmpty then r1 else applyChunkLogs interactionType logs r1
      transferTokensLoop oracle interactionType fromB toB chunkSize budget rest r2

namespace TransferToContractDetector

/-- `TransferToContractDetector.detect` (app/detectors/transfer_to.py).
The interaction type is `config.interaction_type or "token_transfer"`
(Python `or`: `None` and `""` both fall back to the default). -/
def detect (oracle : RpcOracle) (contract : ContractEntry)
    (fromB toB chunkSize : Int) (budget : Nat) : DetectionResult :=
  match contract.detection_config.token_contracts with
  | none => {}
  | some [] => {}
  | some tokens =>
    let interactionType :=
      match contract.detection_config.interaction_type with
      | some s => if s = "" then "token_transfer" else s
      | none => "token_transfer"
    transferTokensLoop oracle interactionType fromB toB chunkSize budget tokens {}

end TransferToContractDetector

/-- The dedup-by-transaction-hash pass of `TxToContractDetector.detect`:
keep the first log per truthy hash, drop logs with a falsy hash. -/
def dedupByHash : List Log → List String → List Log
  | [], _ => []
  | l :: rest, seen =>
    match l.transactionHash with
    | none => dedupByHash rest seen
    | some h =>
      if h ≠ "" ∧ h ∉ seen then l :: dedupByHash rest (h :: seen)
      else dedupByHash rest seen

namespace TxToContractDetector

/-- `TxToContractDetector.detect` (app/detectors/tx_to.py): two chunked
queries (user at topic1, then topic2) sharing one call counter, then a
dedup of the union by transaction hash. -/
def detect (oracle : RpcOracle) (_contract : ContractEntry)
    (fromB toB chunkSize : Int) (budget : Nat) : DetectionResult :=
  let (r1, logs1) := collectChunkLoop oracle fromB chunkSize budget toB {} []
  let (r2, logs2) := collectChunkLoop oracle fromB chunkSize budget toB r1 []
  let allLogs := dedupByHash (logs1 ++ logs2) []
  if allLogs.isEmpty then r2
  else
    { r2 with
      interacted := true
      interaction_count := allLogs.length
      signal_types := r2.signal_types ++ ["contract_interaction"]
      first_seen := some (toString (blockMin allLogs))
      last_seen := some (toString (blockMax allLogs)) }

end TxToContractDetector

/-! ### Scan coordinator, EVM path (app/services/scanner.py) -/

/-- `_get_evm_detector` composed with the chosen detector's `detect`:
`some` of the detection for the three EVM modes, `None` otherwise. -/
def runEvmDetector (mode : DetectionMode) (oracle : RpcOracle)
    (contract : ContractEntry) (fromB toB chunkSize : Int)
    (budget : Nat) : Option DetectionResult :=
  match mode with
  | .event_topic =>
    some (EventTopicDetector.detect oracle contract fromB toB chunkSize budget)
  | .transfer_to_contract =>
    some (TransferToContractDetector.detect oracle contract fromB toB chunkSize budget)
  | .tx_to_contract =>
    some (TxToContractDetector.detect oracle contract fromB toB chunkSize budget)
  | _ => none

/-- The sub-detector loop of `_run_hybrid_evm`.  `oracleFam n` is the
outcome oracle handed to the sub-detector at list position `n`. -/
def hybridSubsLoop (oracleFam : Nat → RpcOracle) (contract : ContractEntry)
    (fromB toB chunkSize : Int) (budget : Nat) :
    List SubDetectorSpec → Nat → Nat → List (DetectionResult × Nat)
  | [], _, _ => []
  | sub :: rest, si, used =>
    if budget ≤ used then []
    else
      match sub.mode.bind DetectionMode.ofString with
      | none => hybridSubsLoop oracleFam contract fromB toB chunkSize budget rest (si + 1) used
      | some mode =>
        match runEvmDetector mode (oracleFam si) contract fromB toB chunkSize (budget - used) with
        | none => hybridSubsLoop oracleFam contract fromB toB chunkSize budget rest (si + 1) used
        | some result =>
          (result, result.rpc_calls_used) ::
            hybridSubsLoop oracleFam contract fromB toB chunkSize budget rest (si + 1)
              (used + result.rpc_calls_used)

/-- `_run_hybrid_evm`: run the configured sub-detectors in order against the
same contract under a shared sub-budget, returning each partial result with
its call count. -/
def run_hybrid_evm (oracleFam : Nat → RpcOracle) (contract : ContractEntry)
    (fromB toB chunkSize : Int) (budget : Nat) : List (DetectionResult × Nat) :=
  match contract.detection_config.sub_detectors with
  | none => []
  | some [] => []
  | some subs => hybridSubsLoop oracleFam contract fromB toB chunkSize budget subs 0 0

/-- The contract loop of `_scan_evm_protocol`.  `oracles ci` is the oracle
family for the contract at position `ci` (its sub-index is the hybrid
sub-detector position, `0` for a plain detector). -/
def evmContractsLoop (oracles : Nat → Nat → RpcOracle)
    (fromB toB chunkSize : Int) (budget : Nat) :
    List ContractEntry → Nat → DetectionResult → Nat → DetectionResult × Nat
  | [], _, merged, total => (merged, total)
  | c :: rest, ci, merged, total =>
    if budget ≤ total then (merged, total)
    else
      let remaining := budget - total
      match c.detection_mode with
      | .hybrid =>
        let subResults := run_hybrid_evm (oracles ci) c fromB toB chunkSize remaining
        let step := subResults.foldl
          (fun acc sub => (merge_result acc.1 sub.1, acc.2 + sub.2)) (merged, total)
        evmContractsLoop oracles fromB toB chunkSize budget rest (ci + 1) step.1 step.2
      | .program_id_match =>
        evmContractsLoop oracles fromB toB chunkSize budget rest (ci + 1) merged total
      | mode =>
        match runEvmDetector mode (oracles ci 0) c fromB toB chunkSize remaining with
        | none =>
          evmContractsLoop oracles fromB toB chunkSize budget rest (ci + 1) merged total
        | some result =>
          evmContractsLoop oracles fromB toB chunkSize budget rest (ci + 1)
            (merge_result merged result) (total + result.rpc_calls_used)

/-- `_scan_evm_protocol`: merge the per-contract detections of one protocol
under a shared budget, returning the merged result and the calls consumed. -/
def scan_evm_protocol (oracles : Nat → Nat → RpcOracle) (protocol : Protocol)
    (fromB toB chunkSize : Int) (budget : Nat) : DetectionResult × Nat :=
  evmContractsLoop oracles fromB toB chunkSize budget protocol.contracts 0 {} 0

/-! ### Response signals (app/models/response.py, builders in scanner.py) -/

/-- `TokenlessSignal`. -/
structure TokenlessSignal where
  protocol_id : String
  protocol_name : String
  category : String
  protocol_weight : ℚ
  interacted : Bool
  first_seen : Option String
  last_seen : Option String
  interaction_count : Nat
  signal_types : List String
  signal_strength : String
  detection_mode : String
  deriving Repr, DecidableEq

/-- `TokenedSignal`. -/
structure TokenedSignal where
  protocol_id : String
  protocol_name : String
  category : String
  token_symbol : String
  interacted : Bool
  note : String
  deriving Repr, DecidableEq

/-- `_primary_mode`. -/
def primary_mode (protocol : Protocol) : String :=
  match protocol.contracts with
  | [] => "unknown"
  | c :: _ => c.detection_mode.value

/-- `_build_tokened_signal`. -/
def build_tokened_signal (protocol : Protocol) (result : DetectionResult) :
    TokenedSignal :=
  { protocol_id := protocol.id
    protocol_name := protocol.name
    category := protocol.category
    token_symbol := protocol.token_symbol.getD ""
    interacted := result.interacted
    note :=
      match protocol.token_symbol with
      | some sym =>
        if result.interacted ∧ sym ≠ "" then
          "Already has token ($" ++ sym ++ ") — included for completeness"
        else ""
      | none => "" }

/-- `_build_tokenless_signal`.  `list(set(...))` deduplicates the signal
types; Python's set iteration order is unspecified, so the embedding fixes
it to first-occurrence order — the theorems only inspect emptiness and
membership of this list. -/
def build_tokenless_signal (protocol : Protocol) (result : DetectionResult) :
    TokenlessSignal :=
  { protocol_id := protocol.id
    protocol_name := protocol.name
    category := protocol.category
    protocol_weight := protocol.protocol_weight
    interacted := result.interacted
    first_seen := result.first_seen
    last_seen := result.last_seen
    interaction_count := result.interaction_count
    signal_types := result.signal_types.dedup
    signal_strength := "none"
    detection_mode := primary_mode protocol }

/-! ### `scan_wallet`, EVM branch -/

/-- The configuration values `scan_wallet` and the detectors read
(app/config.py); `defaultSettings` carries the source defaults. -/
structure Settings where
  max_rpc_calls_per_scan : Nat
  max_scan_seconds : ℚ
  max_log_block_range : Int
  max_solana_signatures : Nat
  max_solana_parse_batch : Nat
  deriving Repr, DecidableEq

/-- The defaults of app/config.py. -/
def defaultSettings : Settings :=
  { max_rpc_calls_per_scan := 150
    max_scan_seconds := 15
    max_log_block_range := 2000
    max_solana_signatures := 1000
    max_solana_parse_batch := 100 }

/-- The external world of one EVM scan: the window-resolution outcome
(`none` models the exception path), the wall clock sampled before each
protocol, the per-call log outcomes (protocol index → contract index →
hybrid sub-index → call index), the block-timestamp lookup of
`batch_get_block_timestamps`, and `datetime`-library date formatting. -/
structure EvmScanEnv where
  window : Option (Int × Int × Nat)
  elapsed : Nat → ℚ
  oracles : Nat → Nat → Nat → RpcOracle
  blockTs : Int → Option Int
  formatDate : Int → String

/-- Ghost instrumentation recorded for each protocol that the scan loop
actually processed: its budget allocation and consumption. -/
structure ScanTraceEntry where
  protocol_id : String
  has_token : Bool
  used_before : Nat
  budget : Nat
  calls : Nat
  deriving Repr, DecidableEq

/-- The value of `scan_wallet` plus ghost instrumentation (`trace`,
`rpc_used`) that records what the loop did; the first four fields are the
source's return tuple. -/
structure ScanResult where
  tokenless : List TokenlessSignal
  tokened : List TokenedSignal
  completeness : String
  skipped : List String
  trace : List ScanTraceEntry
  rpc_used : Nat
  deriving Repr, DecidableEq

/-- The intermediate value of the EVM per-protocol loop. -/
structure EvmLoopOut where
  tokenless : List TokenlessSignal
  tokened : List TokenedSignal
  completeness : String
  skipped : List String
  trace : List ScanTraceEntry
  used : Nat
  deriving Repr, DecidableEq

/-- The per-protocol loop of `scan_wallet` (EVM): check the wall clock,
then the RPC budget, before each protocol; allocate `min(remaining, 3)` to
tokened protocols and all of `remaining` to tokenless ones; on a trip stop
and skip every remaining protocol. -/
def evmScanLoop (env : EvmScanEnv) (s : Settings) (fromB toB : Int) :
    List Protocol → Nat → Nat → EvmLoopOut
  | [], _, used => ⟨[], [], "full", [], [], used⟩
  | p :: rest, i, used =>
    if s.max_scan_seconds ≤ env.elapsed i then
      ⟨[], [], "partial", (p :: rest).map Protocol.id, [], used⟩
    else if s.max_rpc_calls_per_scan ≤ used then
      ⟨[], [], "partial", (p :: rest).map Protocol.id, [], used⟩
    else
      let remaining := s.max_rpc_calls_per_scan - used
      let budget := if p.has_token then min remaining 3 else remaining
      let rc := scan_evm_protocol (env.oracles i) p fromB toB s.max_log_block_range budget
      let entry : ScanTraceEntry :=
        { protocol_id := p.id, has_token := p.has_token, used_before := used
          budget := budget, calls := rc.2 }
      let out := evmScanLoop env s fromB toB rest (i + 1) (used + rc.2)
      if p.has_token then
        { out with tokened := build_tokened_signal p rc.1 :: out.tokened
                   trace := entry :: out.trace }
      else
        { out with tokenless := build_tokenless_signal p rc.1 :: out.tokenless
                   trace := entry :: out.trace }

/-- `_block_num_to_date`: parse the block-number string, look it up in the
batch timestamp table, format when found and non-zero. -/
def block_num_to_date (env : EvmScanEnv) (v : String) : Option String :=
  match pyInt v with
  | none => none
  | some bn =>
    match env.blockTs bn with
    | none => none
    | some ts => if ts ≠ 0 then some (env.formatDate ts) else none

/-- The marker rewrite applied to each tokenless signal after the EVM loop:
truthy markers are replaced by their resolved calendar date. -/
def convertEvmSignal (env : EvmScanEnv) (sig : TokenlessSignal) : TokenlessSignal :=
  { sig with
    first_seen :=
      if strTruthy sig.first_seen then block_num_to_date env (sig.first_seen.getD "")
      else sig.first_seen
    last_seen :=
      if strTruthy sig.last_seen then block_num_to_date env (sig.last_seen.getD "")
      else sig.last_seen }

/-- The block numbers collected from the tokenless signals for the batch
timestamp lookup (the source gathers them into a set; only emptiness is
observable). -/
def collectBlockNumbers (signals : List TokenlessSignal) : List Int :=
  signals.foldr
    (fun sig acc =>
      (match sig.first_seen with
        | some v => if v ≠ "" then (pyInt v).toList else []
        | none => []) ++
      (match sig.last_seen with
        | some v => if v ≠ "" then (pyInt v).toList else []
        | none => []) ++ acc) []

/-- `scan_wallet` (app/services/scanner.py), EVM branch: resolve the
window (fatal on failure), iterate protocols under both budgets, then
batch-resolve block markers to dates. -/
def scan_wallet_evm (env : EvmScanEnv) (s : Settings)
    (protocols : List Protocol) : ScanResult :=
  match env.window with
  | none =>
    { tokenless := [], tokened := [], completeness := "error"
      skipped := protocols.map Protocol.id, trace := [], rpc_used := 0 }
  | some (fromB, toB, windowUsed) =>
    let out := evmScanLoop env s fromB toB protocols 0 windowUsed
    let tokenless :=
      if collectBlockNumbers out.tokenless = [] then out.tokenless
      else out.tokenless.map (convertEvmSignal env)
    { tokenless := tokenless, tokened := out.tokened, completeness := out.completeness
      skipped := out.skipped, trace := out.trace, rpc_used := out.used }

/-! ### Solana transactions and the program-id detector
(app/detectors/program_id.py) -/

/-- An inner instruction: only its `programId` is read (`.get`, so
optional). -/
structure InnerInstruction where
  programId : Option String := none
  deriving Repr, DecidableEq

/-- A top-level instruction of a parsed transaction. -/
structure Instruction where
  programId : Option String := none
  data : String := ""
  innerInstructions : List InnerInstruction := []
  deriving Repr, DecidableEq

/-- One `accountData` entry: only its `account` field is read. -/
structure AccountData where
  account : Option String := none
  deriving Repr, DecidableEq

/-- A parsed Solana transaction, reduced to the fields the detector reads.
`txType` is `tx.get("type", ...)` (`none` = key missing); `accountKeys`
models `transaction.message.accountKeys` with the `pubkey` already
extracted from dict entries. -/
structure ParsedTx where
  instructions : List Instruction := []
  accountData : List AccountData := []
  accountKeys : List String := []
  txType : Option String := none
  timestamp : Option Int := none
  deriving Repr, DecidableEq

/-- `data.startswith(d)` for some configured discriminator `d`. -/
def dataMatchesDiscriminator (discriminators : List String) (data : String) : Bool :=
  discriminators.any (fun d => d.isPrefixOf data)

/-- `_tx_involves_program`: top-level instruction match (discriminator
prefix required only when discriminators are configured), inner-instruction
match (no discriminator check, by design), `accountData` involvement, or
the raw-format account-key fallback. -/
def tx_involves_program (tx : ParsedTx) (program_id : String)
    (discriminators : List String) : Bool :=
  tx.instructions.any (fun ix =>
    (ix.programId = some program_id ∧
      (if discriminators.isEmpty then True
       else dataMatchesDiscriminator discriminators ix.data)) ∨
    ix.innerInstructions.any (fun inner => inner.programId = some program_id)) ∨
  tx.accountData.any (fun acc => acc.account = some program_id) ∨
  tx.accountKeys.any (fun key => key = program_id)

/-- The Helius `type` of a matching transaction: `"unknown"` when the key
is missing. -/
def txTypeOrUnknown (tx : ParsedTx) : String := tx.txType.getD "unknown"

/-- The non-falsy timestamps of the matching transactions (`if ts:` treats
`0` as absent). -/
def matchTimestamps (txs : List ParsedTx) : List Int :=
  txs.filterMap (fun tx =>
    match tx.timestamp with
    | some ts => if ts ≠ 0 then some ts else none
    | none => none)

/-- Minimum of a non-empty integer list (unused fallback 0 otherwise). -/
def intListMin : List Int → Int
  | [] => 0
  | x :: xs => xs.foldl min x

/-- Maximum of a non-empty integer list (unused fallback 0 otherwise). -/
def intListMax : List Int → Int
  | [] => 0
  | x :: xs => xs.foldl max x

namespace ProgramIdMatchDetector

/-- `ProgramIdMatchDetector.detect_from_parsed_txs`: strip the configured
address, filter the parsed batch by program involvement, then build the
evidence (distinct Helius types — a Python set, embedded in
first-occurrence order — and min/max timestamps).  Makes no RPC calls. -/
def detect_from_parsed_txs (contract : ContractEntry)
    (parsed_txs : List ParsedTx) : DetectionResult :=
  let program_id := pyStrip contract.address
  let discriminators :=
    match contract.detection_config.instruction_discriminators with
    | none => []
    | some ds => ds
  let matching := parsed_txs.filter (fun tx => tx_involves_program tx program_id discriminators)
  if matching.isEmpty then {}
  else
    let timestamps := matchTimestamps matching
    { interacted := true
      interaction_count := matching.length
      signal_types := (matching.map txTypeOrUnknown).dedup
      first_seen :=
        if timestamps.isEmpty then none else some (toString (intListMin timestamps))
      last_seen :=
        if timestamps.isEmpty then none else some (toString (intListMax timestamps))
      rpc_calls_used := 0 }

end ProgramIdMatchDetector

/-! ### Scan coordinator, Solana path -/

/-- One entry of the signature-fetch response; only `s.get("signature")`
is read. -/
structure SigEntry where
  signature : Option String := none
  deriving Repr, DecidableEq

/-- Outcome of one raw `get_transaction` call in the fallback path:
an exception, or a possibly-`None` transaction. -/
inductive RawTxOutcome where
  | err
  | ok (tx : Option ParsedTx)
  deriving Repr

/-- The external world of one Solana scan: signature-fetch outcome (`none`
models the exception), Helius availability, per-batch enhanced-parse
outcomes, per-signature raw-fetch outcomes, the wall clock, and date
formatting. -/
structure SolanaScanEnv where
  fetch : Option (List SigEntry)
  heliusAvailable : Bool
  heliusParse : Nat → Option (List ParsedTx)
  rawTx : Nat → RawTxOutcome
  elapsed : Nat → ℚ
  formatDate : Int → String

/-- The truthy signatures extracted from the fetch response
(`[s.get("signature") for s in sig_results if s.get("signature")]`). -/
def solanaSigIds (sigResults : List SigEntry) : List String :=
  sigResults.filterMap (fun e =>
    match e.signature with
    | some v => if v ≠ "" then some v else none
    | none => none)

/-- The Helius batch loop of `_parse_solana_transactions` over `n` batches:
all batches must succeed, any exception abandons the partial results
(`none` triggers the raw fallback). -/
def heliusBatchLoop (env : SolanaScanEnv) : Nat → Option (List ParsedTx)
  | 0 => some []
  | n + 1 =>
    match heliusBatchLoop env n, env.heliusParse n with
    | some acc, some parsed => some (acc ++ parsed)
    | _, _ => none

/-- The raw-RPC fallback over the first `k` signatures: failed fetches are
counted, `None` transactions are silently dropped, successes are kept in
order. -/
def rawFallbackLoop (env : SolanaScanEnv) (k : Nat) : List ParsedTx × Nat :=
  (List.range k).foldl
    (fun acc j =>
      match env.rawTx j with
      | .err => (acc.1, acc.2 + 1)
      | .ok none => acc
      | .ok (some tx) => (acc.1 ++ [tx], acc.2))
    ([], 0)

/-- `_parse_solana_transactions`: prefer the chunked Helius batch parse (no
failures counted on success); on Helius unavailability or any batch
exception fall back to raw per-signature fetches of the first
`max_solana_parse_batch` signatures.  A zero batch size makes `range`
raise inside the guarded block, which also falls back. -/
def parse_solana_transactions (env : SolanaScanEnv) (s : Settings)
    (signatures : List String) : List ParsedTx × Nat :=
  if signatures.isEmpty then ([], 0)
  else
    let fallback := rawFallbackLoop env (min signatures.length s.max_solana_parse_batch)
    if env.heliusAvailable then
      let nBatches :=
        if s.max_solana_parse_batch = 0 then 0
        else (signatures.length + s.max_solana_parse_batch - 1) / s.max_solana_parse_batch
      if s.max_solana_parse_batch = 0 then fallback
      else
        match heliusBatchLoop env nBatches with
        | some allParsed => (allParsed, 0)
        | none => fallback
    else fallback

/-- The intermediate value of the Solana per-protocol loop. -/
structure SolLoopOut where
  tokenless : List TokenlessSignal
  tokened : List TokenedSignal
  skipped : List String
  processed : Nat
  deriving Repr, DecidableEq

/-- The per-protocol loop of `_scan_solana_protocols`: only the wall clock
is checked; each processed protocol folds the program-id detection of its
contracts through `_merge_result`.  Returns the built signals, the skipped
ids and the number of protocols processed (ghost). -/
def solanaScanLoop (env : SolanaScanEnv) (s : Settings)
    (parsedTxs : List ParsedTx) : List Protocol → Nat → SolLoopOut
  | [], _ => ⟨[], [], [], 0⟩
  | p :: rest, i =>
    if s.max_scan_seconds ≤ env.elapsed i then
      ⟨[], [], (p :: rest).map Protocol.id, 0⟩
    else
      let result := p.contracts.foldl
        (fun acc c => merge_result acc (ProgramIdMatchDetector.detect_from_parsed_txs c parsedTxs))
        {}
      let out := solanaScanLoop env s parsedTxs rest (i + 1)
      if p.has_token then
        { out with tokened := build_tokened_signal p result :: out.tokened
                   processed := out.processed + 1 }
      else
        { out with tokenless := build_tokenless_signal p result :: out.tokenless
                   processed := out.processed + 1 }

/-- `_unix_ts_to_date`: parse the stringified Unix timestamp and format it
as a calendar date (`None` when unparsable). -/
def unix_ts_to_date (env : SolanaScanEnv) (v : String) : Option String :=
  (pyInt v).map env.formatDate

/-- The marker rewrite applied to each tokenless signal after the Solana
loop. -/
def convertSolanaSignal (env : SolanaScanEnv) (sig : TokenlessSignal) :
    TokenlessSignal :=
  { sig with
    first_seen :=
      if strTruthy sig.first_seen then unix_ts_to_date env (sig.first_seen.getD "")
      else sig.first_seen
    last_seen :=
      if strTruthy sig.last_seen then unix_ts_to_date env (sig.last_seen.getD "")
      else sig.last_seen }

/-- The value of `_scan_solana_protocols` plus ghost instrumentation:
`processed` counts protocols that went through the detection loop,
`parse_ran` records whether transaction parsing was performed at all. -/
structure SolScanResult where
  tokenless : List TokenlessSignal
  tokened : List TokenedSignal
  completeness : String
  skipped : List String
  processed : Nat
  parse_ran : Bool
  deriving Repr, DecidableEq

/-- `_scan_solana_protocols` (reached from `scan_wallet` when
`chain == "solana"`): fetch signatures (fatal on failure), short-circuit to
per-protocol empty signals when there are none, otherwise parse once,
degrade to `"partial"` when at least half the signatures failed to parse,
and run the wall-clock-budgeted per-protocol loop. -/
def scan_solana_protocols (env : SolanaScanEnv) (s : Settings)
    (protocols : List Protocol) : SolScanResult :=
  match env.fetch with
  | none =>
    { tokenless := [], tokened := [], completeness := "error"
      skipped := protocols.map Protocol.id, processed := 0, parse_ran := false }
  | some sigResults =>
    let sigIds := solanaSigIds sigResults
    if sigIds.isEmpty then
      { tokenless := (protocols.filter (fun p => !p.has_token)).map
          (fun p => build_tokenless_signal p {})
        tokened := (protocols.filter (fun p => p.has_token)).map
          (fun p => build_tokened_signal p {})
        completeness := "full", skipped := [], processed := 0, parse_ran := false }
    else
      let pf := parse_solana_transactions env s sigIds
      let comp0 : String :=
        if 0 < pf.2 ∧ sigIds.length ≤ 2 * pf.2 then "partial" else "full"
      let out := solanaScanLoop env s pf.1 protocols 0
      { tokenless := out.tokenless.map (convertSolanaSignal env)
        tokened := out.tokened
        completeness := if out.skipped.isEmpty then comp0 else "partial"
        skipped := out.skipped
        processed := out.processed
        parse_ran := true }

/-! ### Auxiliary notions used by the theorem statements -/

/-- The oracle in which every transport failure is replaced by a successful
empty-log answer.  Detector runs are insensitive to this replacement, which
is the formal content of "a failed call is charged and skipped, not
fatal". -/
def failureAsEmpty (o : RpcOracle) : RpcOracle :=
  fun k => some ((o k).getD [])

/-- A detection result is a well-formed merge source when, if it reports no
interaction, it carries no evidence either — which is true of every result
the detectors produce. -/
def SourceWF (r : DetectionResult) : Prop :=
  r.interacted = false →
    r.interaction_count = 0 ∧ r.signal_types = [] ∧
    r.first_seen = none ∧ r.last_seen = none

/-- Minimum of two optional integers (`none` = absent). -/
def omin : Option Int → Option Int → Option Int
  | none, b => b
  | some a, none => some a
  | some a, some b => some (min a b)

/-- Maximum of two optional integers (`none` = absent). -/
def omax : Option Int → Option Int → Option Int
  | none, b => b
  | some a, none => some a
  | some a, some b => some (max a b)

/-- Minimum over a list of integers, `none` when empty. -/
def foldOMin (l : List Int) : Option Int :=
  l.foldl (fun acc x => omin acc (some x)) none

/-- Maximum over a list of integers, `none` when empty. -/
def foldOMax (l : List Int) : Option Int :=
  l.foldl (fun acc x => omax acc (some x)) none

/-- The integer values of the `first_seen` markers of a source list that
actually parse. -/
def firstMarkers (srcs : List DetectionResult) : List Int :=
  srcs.filterMap (fun s => markerVal s.first_seen)

/-- The integer values of the `last_seen` markers of a source list that
actually parse. -/
def lastMarkers (srcs : List DetectionResult) : List Int :=
  srcs.filterMap (fun s => markerVal s.last_seen)

/-- Total RPC calls a trace attributes to the processed protocols. -/
def traceCalls (tr : List ScanTraceEntry) : Nat :=
  (tr.map ScanTraceEntry.calls).sum

/-- RPC calls consumed before processing protocol index `j`, given the
window-resolution cost and the scan trace. -/
def usedBefore (windowUsed : Nat) (tr : List ScanTraceEntry) (j : Nat) : Nat :=
  windowUsed + traceCalls (tr.take j)

/-- A budget limit trips at protocol index `i` of an EVM scan when the
sampled wall clock has reached `max_scan_seconds` or the consumed calls
have reached `max_rpc_calls_per_scan`. -/
def TripAt (env : EvmScanEnv) (s : Settings) (i used : Nat) : Prop :=
  s.max_scan_seconds ≤ env.elapsed i ∨ s.max_rpc_calls_per_scan ≤ used

instance (env : EvmScanEnv) (s : Settings) (i used : Nat) :
    Decidable (TripAt env s i used) := by
  unfold TripAt
  infer_instance

/-! ### Concrete scan instances used by the witnesses -/

/-- An EVM environment whose wall clock trips before the second protocol. -/
def evmTripEnv : EvmScanEnv :=
  { window := some (0, 10, 0)
    elapsed := fun n => if n = 1 then 20 else 0
    oracles := fun _ _ _ => fun _ => some []
    blockTs := fun _ => none
    formatDate := fun _ => "" }

/-- An EVM environment whose window resolution raises. -/
def evmErrEnv : EvmScanEnv :=
  { window := none
    elapsed := fun _ => 0
    oracles := fun _ _ _ => fun _ => some []
    blockTs := fun _ => none
    formatDate := fun _ => "" }

/-- A two-protocol catalog (both tokenless, no contracts). -/
def twoProtocols : List Protocol :=
  [{ id := "a", has_token := false }, { id := "b", has_token := false }]

/-- A Solana environment whose signature fetch raises. -/
def solErrEnv : SolanaScanEnv :=
  { fetch := none
    heliusAvailable := false
    heliusParse := fun _ => none
    rawTx := fun _ => .err
    elapsed := fun _ => 0
    formatDate := fun _ => "" }

/-- A Solana environment that fetches zero signatures. -/
def solEmptyEnv : SolanaScanEnv :=
  { fetch := some []
    heliusAvailable := false
    heliusParse := fun _ => none
    rawTx := fun _ => .err
    elapsed := fun _ => 0
    formatDate := fun _ => "" }

/-- A Solana environment with two fetched signatures whose raw fallback
fails on every signature (Helius unavailable). -/
def solParseFailEnv : SolanaScanEnv :=
  { fetch := some [{ signature := some "s1" }, { signature := some "s2" }]
    heliusAvailable := false
    heliusParse := fun _ => none
    rawTx := fun _ => .err
    elapsed := fun _ => 0
    formatDate := fun _ => "" }

/-- A Solana environment whose wall clock trips before the second
protocol. -/
def solTripEnv : SolanaScanEnv :=
  { fetch := some [{ signature := some "s1" }]
    heliusAvailable := false
    heliusParse := fun _ => none
    rawTx := fun _ => .ok none
    elapsed := fun n => if n = 1 then 20 else 0
    formatDate := fun _ => "" }

/-! ## Theorems -/

/-- The recency component, rewritten by cases on the parsed `last_seen`
(the source's 999-day placeholder lands in the 0-point band). -/
theorem recencyPoints_cases (last_seen : Option Int) (now : Int) :
    recencyPoints last_seen now =
      match last_seen with
      | none => 0
      | some l =>
        if now - l ≤ 7 then 3 else if now - l ≤ 30 then 2
        else if now - l ≤ 90 then 1 else 0 := by
  rcases last_seen with _ | l
  · norm_num [recencyPoints]
  · rfl

/-- C7: `calculate_strength` returns `"none"` for a zero count and
otherwise sums the four capped components (count 2/5/10, diversity 1/2/3,
recency ≤7/≤30/≤90 with a missing `lastSeen` very old, +1 for a span of at
least 30 days), scales by the protocol weight and classifies with the
inclusive bounds 7/4/1; on the two concrete spec examples it yields
`"strong"` (raw 10) and `"moderate"` (raw 6). -/
theorem calculate_strength_spec :
    (∀ (count : Nat) (types : List String) (first_seen last_seen : Option Int)
      (now : Int) (w : ℚ),
      calculate_strength count types first_seen last_seen now w =
        strengthClaimC7 count types first_seen last_seen now w) ∧
    calculate_strength 15 ["swap", "supply", "borrow"]
      (some 19927) (some 20000) 20000 1 = "strong" ∧
    calculate_strength 5 ["swap"] none (some 20000) 20000 1 = "moderate" := by
  refine ⟨fun count types first_seen last_seen now w => ?_, ?_, ?_⟩
  · rcases last_seen with _ | l <;> rfl
  · have hs : countPoints 15 + diversityPoints ["swap", "supply", "borrow"]
        + recencyPoints (some 20000) 20000
        + durationPoints (some 19927) (some 20000) = 10 := by decide
    simp only [calculate_strength, hs]
    norm_num
  · have hs : countPoints 5 + diversityPoints ["swap"]
        + recencyPoints (some 20000) 20000 + durationPoints none (some 20000) = 6 := by
      decide
    simp only [calculate_strength, hs]
    norm_num

/-- C8 counterexample: the sentinel the diversity component excludes is the
string `"unknown_interaction"`, while the Solana program-id detector
produces the string `"unknown"` for transactions without a Helius type; a
types list holding only `"unknown"` therefore contributes 1, not 0 — enough
to lift a signal from `"none"` to `"weak"`. -/
theorem unknown_counts_toward_diversity :
    (ProgramIdMatchDetector.detect_from_parsed_txs
        { address := "PID", detection_mode := .program_id_match }
        [{ accountKeys := ["PID"] }]).signal_types = ["unknown"] ∧
    diversityPoints ["unknown"] = 1 ∧
    calculate_strength 1 ["unknown"] none none 0 1 = "weak" ∧
    calculate_strength 1 [] none none 0 1 = "none" := by
  refine ⟨by decide, by decide, ?_, ?_⟩
  · have hs : countPoints 1 + diversityPoints ["unknown"]
        + recencyPoints none 0 + durationPoints none none = 1 := by decide
    simp only [calculate_strength, hs]
    norm_num
  · have hs : countPoints 1 + diversityPoints []
        + recencyPoints none 0 + durationPoints none none = 0 := by decide
    simp only [calculate_strength, hs]
    norm_num

/-- C8 (amended): a signal whose types list contains only the
`"unknown_interaction"` sentinel (in any multiplicity) contributes 0 to the
type-diversity component of `calculate_strength`, leaving the strength
exactly as for an empty types list. -/
theorem sentinel_excluded_from_diversity (count : Nat) (types : List String)
    (first_seen last_seen : Option Int) (now : Int) (w : ℚ)
    (h : ∀ t ∈ types, t = "unknown_interaction") :
    diversityPoints types = 0 ∧
    calculate_strength count types first_seen last_seen now w =
      calculate_strength count [] first_seen last_seen now w := by
  have hf : types.filter (fun t => t ≠ "unknown_interaction") = [] := by
    rw [List.filter_eq_nil_iff]
    intro a ha
    simp [h a ha]
  have hd : diversityPoints types = 0 := by
    unfold diversityPoints typeDiversity
    rw [hf]
    rfl
  have hd0 : diversityPoints [] = 0 := by decide
  exact ⟨hd, by simp only [calculate_strength, hd, hd0]⟩

/-- Witness for the amended C8 at a concrete repeated-sentinel input. -/
theorem sentinel_excluded_from_diversity_witness :
    diversityPoints ["unknown_interaction", "unknown_interaction"] = 0 ∧
    calculate_strength 2 ["unknown_interaction", "unknown_interaction"]
        none (some 20000) 20000 1 =
      calculate_strength 2 [] none (some 20000) 20000 1 := by
  exact sentinel_excluded_from_diversity 2
    ["unknown_interaction", "unknown_interaction"] none (some 20000) 20000 1
    (by decide)

theorem omin_none_right (a : Option Int) : omin a none = a := by
  cases a <;> rfl

theorem omax_none_right (a : Option Int) : omax a none = a := by
  cases a <;> rfl

theorem omin_assoc (a b c : Option Int) :
    omin (omin a b) c = omin a (omin b c) := by
  cases a <;> cases b <;> cases c <;> simp [omin, min_assoc]

theorem omax_assoc (a b c : Option Int) :
    omax (omax a b) c = omax a (omax b c) := by
  cases a <;> cases b <;> cases c <;> simp [omax, max_assoc]

/-- A falsy optional string has no integer marker value. -/
theorem markerVal_of_not_truthy (x : Option String) (hx : strTruthy x = false) :
    markerVal x = none := by
  rcases x with _ | v
  · rfl
  · simp [strTruthy] at hx
    subst hx
    rfl

/-- The `first_seen` update tracks the minimum of the parsed marker
values. -/
theorem markerVal_mergeFirstSeen (t s : Option String) :
    markerVal (mergeFirstSeen t s) = omin (markerVal t) (markerVal s) := by
  by_cases hts : strTruthy s
  · rcases h1 : safe_int s with _ | sv
    · have he : mergeFirstSeen t s = t := by
        unfold mergeFirstSeen
        rw [if_pos hts, h1]
      rw [he, show markerVal s = none from h1, omin_none_right]
    · rcases h2 : safe_int t with _ | tv
      · have he : mergeFirstSeen t s = s := by
          unfold mergeFirstSeen
          rw [if_pos hts, h1, h2]
        rw [he, show markerVal t = none from h2, show markerVal s = some sv from h1]
        rfl
      · have he : mergeFirstSeen t s = if sv < tv then s else t := by
          unfold mergeFirstSeen
          rw [if_pos hts, h1, h2]
        rw [he, show markerVal t = some tv from h2, show markerVal s = some sv from h1]
        by_cases hlt : sv < tv
        · rw [if_pos hlt, show markerVal s = some sv from h1]
          show _ = some (min tv sv)
          congr 1
          omega
        · rw [if_neg hlt, show markerVal t = some tv from h2]
          show _ = some (min tv sv)
          congr 1
          omega
  · have he : mergeFirstSeen t s = t := by
      unfold mergeFirstSeen
      rw [if_neg hts]
    rw [he, markerVal_of_not_truthy s (by simpa using hts), omin_none_right]

/-- The `last_seen` update tracks the maximum of the parsed marker
values. -/
theorem markerVal_mergeLastSeen (t s : Option String) :
    markerVal (mergeLastSeen t s) = omax (markerVal t) (markerVal s) := by
  by_cases hts : strTruthy s
  · rcases h1 : safe_int s with _ | sv
    · have he : mergeLastSeen t s = t := by
        unfold mergeLastSeen
        rw [if_pos hts, h1]
      rw [he, show markerVal s = none from h1, omax_none_right]
    · rcases h2 : safe_int t with _ | tv
      · have he : mergeLastSeen t s = s := by
          unfold mergeLastSeen
          rw [if_pos hts, h1, h2]
        rw [he, show markerVal t = none from h2, show markerVal s = some sv from h1]
        rfl
      · have he : mergeLastSeen t s = if tv < sv then s else t := by
          unfold mergeLastSeen
          rw [if_pos hts, h1, h2]
        rw [he, show markerVal t = some tv from h2, show markerVal s = some sv from h1]
        by_cases hlt : tv < sv
        · rw [if_pos hlt, show markerVal s = some sv from h1]
          show _ = some (max tv sv)
          congr 1
          omega
        · rw [if_neg hlt, show markerVal t = some tv from h2]
          show _ = some (max tv sv)
          congr 1
          omega
  · have he : mergeLastSeen t s = t := by
      unfold mergeLastSeen
      rw [if_neg hts]
    rw [he, markerVal_of_not_truthy s (by simpa using hts), omax_none_right]

theorem foldl_omin_seed (l : List Int) :
    ∀ b, l.foldl (fun acc x => omin acc (some x)) b = omin b (foldOMin l) := by
  induction l with
  | nil => intro b; exact (omin_none_right b).symm
  | cons x xs ih =>
    intro b
    have hx : foldOMin (x :: xs) = omin (some x) (foldOMin xs) := by
      unfold foldOMin
      simp only [List.foldl_cons]
      exact ih (omin none (some x))
    simp only [List.foldl_cons]
    rw [ih (omin b (some x)), hx, omin_assoc]

theorem foldl_omax_seed (l : List Int) :
    ∀ b, l.foldl (fun acc x => omax acc (some x)) b = omax b (foldOMax l) := by
  induction l with
  | nil => intro b; exact (omax_none_right b).symm
  | cons x xs ih =>
    intro b
    have hx : foldOMax (x :: xs) = omax (some x) (foldOMax xs) := by
      unfold foldOMax
      simp only [List.foldl_cons]
      exact ih (omax none (some x))
    simp only [List.foldl_cons]
    rw [ih (omax b (some x)), hx, omax_assoc]

/-- Folding interacted sources into any target accumulates the minimum
`first_seen` marker value. -/
theorem fold_merge_first (srcs : List DetectionResult) :
    ∀ t : DetectionResult, (∀ s ∈ srcs, s.interacted = true) →
    markerVal ((srcs.foldl merge_result t).first_seen) =
      omin (markerVal t.first_seen) (foldOMin (firstMarkers srcs)) := by
  induction srcs with
  | nil =>
    intro t _
    exact (omin_none_right _).symm
  | cons s rest ih =>
    intro t h
    have hs : s.interacted = true := h s (by simp)
    have hrest : ∀ x ∈ rest, x.interacted = true := fun x hx => h x (by simp [hx])
    simp only [List.foldl_cons]
    rw [ih _ hrest]
    have hm : markerVal (merge_result t s).first_seen =
        omin (markerVal t.first_seen) (markerVal s.first_seen) := by
      simp [merge_result, hs, markerVal_mergeFirstSeen]
    rw [hm, omin_assoc]
    congr 1
    rcases hms : markerVal s.first_seen with _ | x
    · have hcons : firstMarkers (s :: rest) = firstMarkers rest := by
        unfold firstMarkers
        rw [List.filterMap_cons_none]
        exact hms
      rw [hcons]
      rfl
    · have hcons : firstMarkers (s :: rest) = x :: firstMarkers rest := by
        unfold firstMarkers
        rw [List.filterMap_cons_some]
        exact hms
      rw [hcons]
      have : foldOMin (x :: firstMarkers rest) =
          omin (some x) (foldOMin (firstMarkers rest)) := by
        unfold foldOMin
        simp only [List.foldl_cons]
        exact foldl_omin_seed _ (omin none (some x))
      rw [this]

/-- Folding interacted sources into any target accumulates the maximum
`last_seen` marker value. -/
theorem fold_merge_last (srcs : List DetectionResult) :
    ∀ t : DetectionResult, (∀ s ∈ srcs, s.interacted = true) →
    markerVal ((srcs.foldl merge_result t).last_seen) =
      omax (markerVal t.last_seen) (foldOMax (lastMarkers srcs)) := by
  induction srcs with
  | nil =>
    intro t _
    exact (omax_none_right _).symm
  | cons s rest ih =>
    intro t h
    have hs : s.interacted = true := h s (by simp)
    have hrest : ∀ x ∈ rest, x.interacted = true := fun x hx => h x (by simp [hx])
    simp only [List.foldl_cons]
    rw [ih _ hrest]
    have hm : markerVal (merge_result t s).last_seen =
        omax (markerVal t.last_seen) (markerVal s.last_seen) := by
      simp [merge_result, hs, markerVal_mergeLastSeen]
    rw [hm, omax_assoc]
    congr 1
    rcases hms : markerVal s.last_seen with _ | x
    · have hcons : lastMarkers (s :: rest) = lastMarkers rest := by
        unfold lastMarkers
        rw [List.filterMap_cons_none]
        exact hms
      rw [hcons]
      rfl
    · have hcons : lastMarkers (s :: rest) = x :: lastMarkers rest := by
        unfold lastMarkers
        rw [List.filterMap_cons_some]
        exact hms
      rw [hcons]
      have : foldOMax (x :: lastMarkers rest) =
          omax (some x) (foldOMax (lastMarkers rest)) := by
        unfold foldOMax
        simp only [List.foldl_cons]
        exact foldl_omax_seed _ (omax none (some x))
      rw [this]

/-- C6: merging a non-interacted source is a strict no-op; a source marker
that is null or does not parse leaves the corresponding target field
unchanged; folding any sequence of interacted sources into an empty target
leaves `first_seen` at the minimum and `last_seen` at the maximum integer
marker value among the sources that parse; merging `firstSeen` values
`"200"`, `"100"`, `"150"` in that order yields `"100"`. -/
theorem merge_extreme_tracking :
    (∀ t s : DetectionResult, s.interacted = false → merge_result t s = t) ∧
    (∀ t s : DetectionResult, s.interacted = true → markerVal s.first_seen = none →
      (merge_result t s).first_seen = t.first_seen) ∧
    (∀ t s : DetectionResult, s.interacted = true → markerVal s.last_seen = none →
      (merge_result t s).last_seen = t.last_seen) ∧
    (∀ srcs : List DetectionResult, (∀ s ∈ srcs, s.interacted = true) →
      markerVal ((srcs.foldl merge_result {}).first_seen) =
        foldOMin (firstMarkers srcs) ∧
      markerVal ((srcs.foldl merge_result {}).last_seen) =
        foldOMax (lastMarkers srcs)) ∧
    (([{ interacted := true, first_seen := some "200" },
       { interacted := true, first_seen := some "100" },
       { interacted := true, first_seen := some "150" }] :
        List DetectionResult).foldl merge_result {}).first_seen = some "100" := by
  refine ⟨?_, ?_, ?_, ?_, by decide⟩
  · intro t s h
    simp [merge_result, h]
  · intro t s h hm
    simp only [merge_result, h, if_true]
    by_cases htr : strTruthy s.first_seen
    · have hsi : safe_int s.first_seen = none := hm
      unfold mergeFirstSeen
      rw [if_pos htr, hsi]
    · unfold mergeFirstSeen
      rw [if_neg htr]
  · intro t s h hm
    simp only [merge_result, h, if_true]
    by_cases htr : strTruthy s.last_seen
    · have hsi : safe_int s.last_seen = none := hm
      unfold mergeLastSeen
      rw [if_pos htr, hsi]
    · unfold mergeLastSeen
      rw [if_neg htr]
  · intro srcs h
    constructor
    · rw [fold_merge_first srcs {} h]
      rfl
    · rw [fold_merge_last srcs {} h]
      rfl

/-- Witness for C6 at a concrete three-source list with parsing and
non-parsing markers. -/
theorem merge_extreme_tracking_witness :
    (([{ interacted := true, first_seen := some "200", last_seen := some "300" },
       { interacted := true, first_seen := some "nan" },
       { interacted := true, first_seen := some "100", last_seen := some "50" }] :
        List DetectionResult).foldl merge_result {}).first_seen.bind
        pyInt = some 100 ∧
    (([{ interacted := true, first_seen := some "200", last_seen := some "300" },
       { interacted := true, first_seen := some "nan" },
       { interacted := true, first_seen := some "100", last_seen := some "50" }] :
        List DetectionResult).foldl merge_result {}).last_seen.bind
        pyInt = some 300 := by
  have h := merge_extreme_tracking.2.2.2.1
    [{ interacted := true, first_seen := some "200", last_seen := some "300" },
     { interacted := true, first_seen := some "nan" },
     { interacted := true, first_seen := some "100", last_seen := some "50" }]
    (by decide)
  refine ⟨?_, ?_⟩
  · have h1 := h.1
    rw [show foldOMin (firstMarkers
        [{ interacted := true, first_seen := some "200", last_seen := some "300" },
         { interacted := true, first_seen := some "nan" },
         { interacted := true, first_seen := some "100", last_seen := some "50" }]) =
        some 100 from by decide] at h1
    exact h1
  · have h2 := h.2
    rw [show foldOMax (lastMarkers
        [{ interacted := true, first_seen := some "200", last_seen := some "300" },
         { interacted := true, first_seen := some "nan" },
         { interacted := true, first_seen := some "100", last_seen := some "50" }]) =
        some 300 from by decide] at h2
    exact h2

/-- `mergeFirstSeen` ignores a `none` source. -/
theorem mergeFirstSeen_none_right (t : Option String) :
    mergeFirstSeen t none = t := rfl

/-- `mergeLastSeen` ignores a `none` source. -/
theorem mergeLastSeen_none_right (t : Option String) :
    mergeLastSeen t none = t := rfl

/-- The normal form of `mergeFirstSeen`: everything factors through the
parsed marker values (a falsy or unparsable source is ignored; a parsable
source replaces an unparsable target). -/
theorem mergeFirstSeen_cases (t s : Option String) :
    mergeFirstSeen t s =
      match markerVal s with
      | none => t
      | some sv =>
        match markerVal t with
        | none => s
        | some tv => if sv < tv then s else t := by
  by_cases hts : strTruthy s
  · rcases h1 : safe_int s with _ | sv
    · rw [show markerVal s = none from h1]
      unfold mergeFirstSeen
      rw [if_pos hts, h1]
    · rw [show markerVal s = some sv from h1]
      rcases h2 : safe_int t with _ | tv
      · rw [show markerVal t = none from h2]
        unfold mergeFirstSeen
        rw [if_pos hts, h1, h2]
      · rw [show markerVal t = some tv from h2]
        unfold mergeFirstSeen
        rw [if_pos hts, h1, h2]
  · rw [markerVal_of_not_truthy s (by simpa using hts)]
    unfold mergeFirstSeen
    rw [if_neg hts]

/-- The normal form of `mergeLastSeen`. -/
theorem mergeLastSeen_cases (t s : Option String) :
    mergeLastSeen t s =
      match markerVal s with
      | none => t
      | some sv =>
        match markerVal t with
        | none => s
        | some tv => if tv < sv then s else t := by
  by_cases hts : strTruthy s
  · rcases h1 : safe_int s with _ | sv
    · rw [show markerVal s = none from h1]
      unfold mergeLastSeen
      rw [if_pos hts, h1]
    · rw [show markerVal s = some sv from h1]
      rcases h2 : safe_int t with _ | tv
      · rw [show markerVal t = none from h2]
        unfold mergeLastSeen
        rw [if_pos hts, h1, h2]
      · rw [show markerVal t = some tv from h2]
        unfold mergeLastSeen
        rw [if_pos hts, h1, h2]
  · rw [markerVal_of_not_truthy s (by simpa using hts)]
    unfold mergeLastSeen
    rw [if_neg hts]

/-- The `first_seen` update is associative on raw marker strings. -/
theorem mergeFirstSeen_assoc (a b c : Option String) :
    mergeFirstSeen (mergeFirstSeen a b) c =
      mergeFirstSeen a (mergeFirstSeen b c) := by
  rcases hc : markerVal c with _ | cv <;> rcases hb : markerVal b with _ | bv <;>
    rcases ha : markerVal a with _ | av <;>
    simp only [mergeFirstSeen_cases, ha, hb, hc] <;>
    split_ifs <;>
    simp only [mergeFirstSeen_cases, ha, hb, hc] <;>
    split_ifs <;>
    first
      | rfl
      | (exfalso; omega)

/-- The `last_seen` update is associative on raw marker strings. -/
theorem mergeLastSeen_assoc (a b c : Option String) :
    mergeLastSeen (mergeLastSeen a b) c =
      mergeLastSeen a (mergeLastSeen b c) := by
  rcases hc : markerVal c with _ | cv <;> rcases hb : markerVal b with _ | bv <;>
    rcases ha : markerVal a with _ | av <;>
    simp only [mergeLastSeen_cases, ha, hb, hc] <;>
    split_ifs <;>
    simp only [mergeLastSeen_cases, ha, hb, hc] <;>
    split_ifs <;>
    first
      | rfl
      | (exfalso; omega)

/-- C5 counterexample: `_merge_result` is not associative over arbitrary
`DetectionResult` values.  A non-interacted source that nevertheless carries
a signal type is dropped when merged directly into the target but its
payload survives when it is first merged with an interacted source. -/
theorem merge_result_not_assoc_on_raw_results :
    merge_result
        (merge_result { interacted := true, interaction_count := 1 }
          { signal_types := ["x"] })
        { interacted := true } ≠
      merge_result { interacted := true, interaction_count := 1 }
        (merge_result { signal_types := ["x"] } { interacted := true }) := by
  decide

/-- C5 (amended): `_merge_result` is associative — so any grouping of a
sequence of merges yields the same final result — provided every source
satisfies the invariant the detectors guarantee: a non-interacted result
carries no count, types or markers.  Repeated application also composes:
folding a concatenation equals folding the parts in order. -/
theorem merge_result_assoc :
    (∀ a b c : DetectionResult, SourceWF b → SourceWF c →
      merge_result (merge_result a b) c = merge_result a (merge_result b c)) ∧
    (∀ (t : DetectionResult) (l m : List DetectionResult),
      (l ++ m).foldl merge_result t = m.foldl merge_result (l.foldl merge_result t)) := by
  constructor
  · intro a b c hb hc
    rcases hbi : b.interacted
    · obtain ⟨hb1, hb2, hb3, hb4⟩ := hb hbi
      rcases hci : c.interacted
      · simp [merge_result, hbi, hci]
      · simp only [merge_result, hbi, hci, Bool.false_eq_true, if_false, if_true]
        simp only [DetectionResult.mk.injEq, hb1, hb2, hb3, hb4]
        refine ⟨trivial, by omega, by simp, ?_, ?_, trivial⟩
        · rw [← mergeFirstSeen_assoc, mergeFirstSeen_none_right]
        · rw [← mergeLastSeen_assoc, mergeLastSeen_none_right]
    · rcases hci : c.interacted
      · simp [merge_result, hci]
      · simp only [merge_result, hbi, hci, if_true]
        simp only [DetectionResult.mk.injEq]
        refine ⟨trivial, by omega, by simp, ?_, ?_, trivial⟩
        · exact mergeFirstSeen_assoc _ _ _
        · exact mergeLastSeen_assoc _ _ _
  · intro t l m
    exact List.foldl_append _ _ _ _

/-- Witness for the amended C5 at concrete well-formed sources. -/
theorem merge_result_assoc_witness :
    merge_result
        (merge_result { interacted := true, interaction_count := 1 }
          { interacted := true, interaction_count := 2, signal_types := ["swap"],
            first_seen := some "7", last_seen := some "9" })
        { interacted := false } =
      merge_result { interacted := true, interaction_count := 1 }
        (merge_result
          { interacted := true, interaction_count := 2, signal_types := ["swap"],
            first_seen := some "7", last_seen := some "9" }
          { interacted := false }) := by
  exact merge_result_assoc.1
    { interacted := true, interaction_count := 1 }
    { interacted := true, interaction_count := 2, signal_types := ["swap"],
      first_seen := some "7", last_seen := some "9" }
    { interacted := false }
    (fun h => Bool.noConfusion h)
    (fun _ => ⟨rfl, rfl, rfl, rfl⟩)

/-! ### Detector budget safety and graceful degradation (C4) -/

theorem applyChunkLogs_rpc (it : String) (logs : List Log) (r : DetectionResult) :
    (applyChunkLogs it logs r).rpc_calls_used = r.rpc_calls_used := rfl

/-- The event-topic chunk loop never pushes the call count past the
budget. -/
theorem eventChunkLoop_rpc_le (oracle : RpcOracle) (it : String)
    (fromB cs : Int) (budget : Nat) :
    ∀ (ce : Int) (r : DetectionResult), r.rpc_calls_used ≤ budget →
      (eventChunkLoop oracle it fromB cs budget ce r).rpc_calls_used ≤ budget := by
  intro ce r
  induction ce, r using eventChunkLoop.induct oracle it fromB cs budget with
  | case1 ce r h cs1 heq ih =>
    intro _
    rw [eventChunkLoop]
    simp only [h, and_self, dif_pos, heq]
    exact ih (by simp; omega)
  | case2 ce r h cs1 logs heq r1 r2 ih =>
    intro _
    rw [eventChunkLoop]
    simp only [h, and_self, dif_pos, heq]
    apply ih
    simp only [r2, r1]
    split <;> simp [applyChunkLogs_rpc] <;> omega
  | case3 ce r h =>
    intro hr
    rw [eventChunkLoop]
    simp only [dif_neg h]
    exact hr

/-- A failed chunk call behaves exactly like a successful empty answer in
the event-topic chunk loop. -/
theorem eventChunkLoop_failureAsEmpty (oracle : RpcOracle) (it : String)
    (fromB cs : Int) (budget : Nat) :
    ∀ (ce : Int) (r : DetectionResult),
      eventChunkLoop (failureAsEmpty oracle) it fromB cs budget ce r =
        eventChunkLoop oracle it fromB cs budget ce r := by
  intro ce r
  induction ce, r using eventChunkLoop.induct oracle it fromB cs budget with
  | case1 ce r h cs1 heq ih =>
    rw [eventChunkLoop, eventChunkLoop]
    simp only [h, and_self, dif_pos, heq, failureAsEmpty]
    simpa [heq] using ih
  | case2 ce r h cs1 logs heq r1 r2 ih =>
    rw [eventChunkLoop, eventChunkLoop]
    simp only [h, and_self, dif_pos, heq, failureAsEmpty]
    simpa [heq, r2, r1] using ih
  | case3 ce r h =>
    rw [eventChunkLoop, eventChunkLoop]
    simp only [dif_neg h]

/-- The signature loop preserves the budget bound. -/
theorem eventSigsLoop_rpc_le (oracle : RpcOracle) (fromB toB cs : Int)
    (budget : Nat) :
    ∀ (sigs : List EventSignatureConfig) (r : DetectionResult),
      r.rpc_calls_used ≤ budget →
      (eventSigsLoop oracle fromB toB cs budget sigs r).rpc_calls_used ≤ budget := by
  intro sigs
  induction sigs with
  | nil => intro r hr; exact hr
  | cons sig rest ih =>
    intro r hr
    rw [eventSigsLoop]
    split
    · exact hr
    · exact ih _ (eventChunkLoop_rpc_le oracle sig.interaction_type fromB cs budget toB r hr)

/-- The signature loop is insensitive to failure-as-empty replacement. -/
theorem eventSigsLoop_failureAsEmpty (oracle : RpcOracle) (fromB toB cs : Int)
    (budget : Nat) :
    ∀ (sigs : List EventSignatureConfig) (r : DetectionResult),
      eventSigsLoop (failureAsEmpty oracle) fromB toB cs budget sigs r =
        eventSigsLoop oracle fromB toB cs budget sigs r := by
  intro sigs
  induction sigs with
  | nil => intro r; rfl
  | cons sig rest ih =>
    intro r
    rw [eventSigsLoop, eventSigsLoop]
    split
    · rfl
    · rw [eventChunkLoop_failureAsEmpty, ih]

/-- C4 for the event-topic detector: budget bound. -/
theorem eventTopicDetect_rpc_le (oracle : RpcOracle) (contract : ContractEntry)
    (fromB toB cs : Int) (budget : Nat) :
    (EventTopicDetector.detect oracle contract fromB toB cs budget).rpc_calls_used ≤
      budget := by
  unfold EventTopicDetector.detect
  split
  · simp
  · simp
  · exact eventSigsLoop_rpc_le oracle fromB toB cs budget _ {} (by simp)

/-- The collecting chunk loop never pushes the call count past the
budget. -/
theorem collectChunkLoop_rpc_le (oracle : RpcOracle) (fromB cs : Int)
    (budget : Nat) :
    ∀ (ce : Int) (r : DetectionResult) (acc : List Log), r.rpc_calls_used ≤ budget →
      (collectChunkLoop oracle fromB cs budget ce r acc).1.rpc_calls_used ≤ budget := by
  intro ce r acc
  induction ce, r, acc using collectChunkLoop.induct oracle fromB cs budget with
  | case1 ce r acc h cs1 heq ih =>
    intro _
    rw [collectChunkLoop]
    simp only [h, and_self, dif_pos, heq]
    exact ih (by simp; omega)
  | case2 ce r acc h cs1 logs heq ih =>
    intro _
    rw [collectChunkLoop]
    simp only [h, and_self, dif_pos, heq]
    exact ih (by simp; omega)
  | case3 ce r acc h =>
    intro hr
    rw [collectChunkLoop]
    simp only [dif_neg h]
    exact hr

/-- The collecting chunk loop sees a failed call as an empty success. -/
theorem collectChunkLoop_failureAsEmpty (oracle : RpcOracle) (fromB cs : Int)
    (budget : Nat) :
    ∀ (ce : Int) (r : DetectionResult) (acc : List Log),
      collectChunkLoop (failureAsEmpty oracle) fromB cs budget ce r acc =
        collectChunkLoop oracle fromB cs budget ce r acc := by
  intro ce r acc
  induction ce, r, acc using collectChunkLoop.induct oracle fromB cs budget with
  | case1 ce r acc h cs1 heq ih =>
    rw [collectChunkLoop, collectChunkLoop]
    simp only [h, and_self, dif_pos, heq, failureAsEmpty]
    simpa [heq] using ih
  | case2 ce r acc h cs1 logs heq ih =>
    rw [collectChunkLoop, collectChunkLoop]
    simp only [h, and_self, dif_pos, heq, failureAsEmpty]
    simpa [heq] using ih
  | case3 ce r acc h =>
    rw [collectChunkLoop, collectChunkLoop]
    simp only [dif_neg h]

/-- The token-contract loop preserves the budget bound. -/
theorem transferTokensLoop_rpc_le (oracle : RpcOracle) (it : String)
    (fromB toB cs : Int) (budget : Nat) :
    ∀ (tokens : List String) (r : DetectionResult), r.rpc_calls_used ≤ budget →
      (transferTokensLoop oracle it fromB toB cs budget tokens r).rpc_calls_used ≤
        budget := by
  intro tokens
  induction tokens with
  | nil => intro r hr; exact hr
  | cons tok rest ih =>
    intro r hr
    rw [transferTokensLoop]
    split
    · exact hr
    · apply ih
      have h1 := collectChunkLoop_rpc_le oracle fromB cs budget toB r [] hr
      split
      · exact h1
      · rw [applyChunkLogs_rpc]
        exact h1

/-- The token-contract loop is insensitive to failure-as-empty
replacement. -/
theorem transferTokensLoop_failureAsEmpty (oracle : RpcOracle) (it : String)
    (fromB toB cs : Int) (budget : Nat) :
    ∀ (tokens : List String) (r : DetectionResult),
      transferTokensLoop (failureAsEmpty oracle) it fromB toB cs budget tokens r =
        transferTokensLoop oracle it fromB toB cs budget tokens r := by
  intro tokens
  induction tokens with
  | nil => intro r; rfl
  | cons tok rest ih =>
    intro r
    rw [transferTokensLoop, transferTokensLoop]
    split
    · rfl
    · rw [collectChunkLoop_failureAsEmpty]
      rcases hcc : collectChunkLoop oracle fromB cs budget toB r [] with ⟨r1, logs⟩
      simp only [hcc]
      exact ih _

/-- C4 for the transfer-to-contract detector: budget bound. -/
theorem transferToDetect_rpc_le (oracle : RpcOracle) (contract : ContractEntry)
    (fromB toB cs : Int) (budget : Nat) :
    (TransferToContractDetector.detect oracle contract fromB toB cs
        budget).rpc_calls_used ≤ budget := by
  unfold TransferToContractDetector.detect
  split
  · simp
  · simp
  · exact transferTokensLoop_rpc_le oracle _ fromB toB cs budget _ {} (by simp)

/-- C4 for the tx-to-contract detector: budget bound. -/
theorem txToDetect_rpc_le (oracle : RpcOracle) (contract : ContractEntry)
    (fromB toB cs : Int) (budget : Nat) :
    (TxToContractDetector.detect oracle contract fromB toB cs
        budget).rpc_calls_used ≤ budget := by
  unfold TxToContractDetector.detect
  rcases h1 : collectChunkLoop oracle fromB cs budget toB {} [] with ⟨ra, logs1⟩
  rcases h2 : collectChunkLoop oracle fromB cs budget toB ra [] with ⟨rb, logs2⟩
  simp only [h1, h2]
  have hb1 : ra.rpc_calls_used ≤ budget := by
    have hc := collectChunkLoop_rpc_le oracle fromB cs budget toB {} [] (by simp)
    rw [h1] at hc
    exact hc
  have hb2 : rb.rpc_calls_used ≤ budget := by
    have hc := collectChunkLoop_rpc_le oracle fromB cs budget toB ra [] hb1
    rw [h2] at hc
    exact hc
  split
  · exact hb2
  · simpa using hb2

/-- Event-topic detection sees a failed call as an empty success. -/
theorem eventTopicDetect_failureAsEmpty (oracle : RpcOracle)
    (contract : ContractEntry) (fromB toB cs : Int) (budget : Nat) :
    EventTopicDetector.detect (failureAsEmpty oracle) contract fromB toB cs budget =
      EventTopicDetector.detect oracle contract fromB toB cs budget := by
  unfold EventTopicDetector.detect
  split
  · rfl
  · rfl
  · exact eventSigsLoop_failureAsEmpty oracle fromB toB cs budget _ {}

/-- Transfer-to-contract detection sees a failed call as an empty
success. -/
theorem transferToDetect_failureAsEmpty (oracle : RpcOracle)
    (contract : ContractEntry) (fromB toB cs : Int) (budget : Nat) :
    TransferToContractDetector.detect (failureAsEmpty oracle) contract fromB toB cs
        budget =
      TransferToContractDetector.detect oracle contract fromB toB cs budget := by
  unfold TransferToContractDetector.detect
  split
  · rfl
  · rfl
  · exact transferTokensLoop_failureAsEmpty oracle _ fromB toB cs budget _ {}

/-- Tx-to-contract detection sees a failed call as an empty success. -/
theorem txToDetect_failureAsEmpty (oracle : RpcOracle)
    (contract : ContractEntry) (fromB toB cs : Int) (budget : Nat) :
    TxToContractDetector.detect (failureAsEmpty oracle) contract fromB toB cs budget =
      TxToContractDetector.detect oracle contract fromB toB cs budget := by
  unfold TxToContractDetector.detect
  rw [collectChunkLoop_failureAsEmpty]
  rcases h1 : collectChunkLoop oracle fromB cs budget toB {} [] with ⟨ra, logs1⟩
  simp only [h1]
  rw [collectChunkLoop_failureAsEmpty]

/-- C4: every EVM detector, on every contract, window, budget and sequence
of per-call outcomes, returns a result with `rpc_calls_used ≤ rpcBudget`
(failed calls are charged), and replacing any failed call by a successful
empty answer does not change the result at all — so one failed chunk call
neither aborts the detection nor suppresses the remaining chunks. -/
theorem detector_budget_safety :
    ∀ (oracle : RpcOracle) (contract : ContractEntry) (fromB toB cs : Int)
      (budget : Nat),
      ((EventTopicDetector.detect oracle contract fromB toB cs
          budget).rpc_calls_used ≤ budget ∧
        EventTopicDetector.detect (failureAsEmpty oracle) contract fromB toB cs
            budget =
          EventTopicDetector.detect oracle contract fromB toB cs budget) ∧
      ((TransferToContractDetector.detect oracle contract fromB toB cs
          budget).rpc_calls_used ≤ budget ∧
        TransferToContractDetector.detect (failureAsEmpty oracle) contract fromB toB
            cs budget =
          TransferToContractDetector.detect oracle contract fromB toB cs budget) ∧
      ((TxToContractDetector.detect oracle contract fromB toB cs
          budget).rpc_calls_used ≤ budget ∧
        TxToContractDetector.detect (failureAsEmpty oracle) contract fromB toB cs
            budget =
          TxToContractDetector.detect oracle contract fromB toB cs budget) := by
  intro oracle contract fromB toB cs budget
  exact ⟨⟨eventTopicDetect_rpc_le oracle contract fromB toB cs budget,
      eventTopicDetect_failureAsEmpty oracle contract fromB toB cs budget⟩,
    ⟨transferToDetect_rpc_le oracle contract fromB toB cs budget,
      transferToDetect_failureAsEmpty oracle contract fromB toB cs budget⟩,
    ⟨txToDetect_rpc_le oracle contract fromB toB cs budget,
      txToDetect_failureAsEmpty oracle contract fromB toB cs budget⟩⟩

/-! ### Scan-level budget conservation (C1) -/

/-- A dispatched detector respects the budget it is handed. -/
theorem runEvmDetector_rpc_le (mode : DetectionMode) (oracle : RpcOracle)
    (c : ContractEntry) (fromB toB cs : Int) (budget : Nat)
    (r : DetectionResult)
    (h : runEvmDetector mode oracle c fromB toB cs budget = some r) :
    r.rpc_calls_used ≤ budget := by
  cases mode
  case event_topic =>
    simp only [runEvmDetector, Option.some.injEq] at h
    exact h ▸ eventTopicDetect_rpc_le oracle c fromB toB cs budget
  case transfer_to_contract =>
    simp only [runEvmDetector, Option.some.injEq] at h
    exact h ▸ transferToDetect_rpc_le oracle c fromB toB cs budget
  case tx_to_contract =>
    simp only [runEvmDetector, Option.some.injEq] at h
    exact h ▸ txToDetect_rpc_le oracle c fromB toB cs budget
  case program_id_match => simp [runEvmDetector] at h
  case hybrid => simp [runEvmDetector] at h

/-- The hybrid sub-detector loop consumes at most the remaining
sub-budget. -/
theorem hybridSubsLoop_sum_le (oracleFam : Nat → RpcOracle)
    (c : ContractEntry) (fromB toB cs : Int) (budget : Nat) :
    ∀ (subs : List SubDetectorSpec) (si used : Nat),
      ((hybridSubsLoop oracleFam c fromB toB cs budget subs si used).map
        Prod.snd).sum ≤ budget - used := by
  intro subs
  induction subs with
  | nil => intro si used; simp [hybridSubsLoop]
  | cons sub rest ih =>
    intro si used
    rw [hybridSubsLoop]
    split
    · simp
    · rcases hm : sub.mode.bind DetectionMode.ofString with _ | mode
      · simp only [hm]
        exact ih (si + 1) used
      · simp only [hm]
        rcases hrd : runEvmDetector mode (oracleFam si) c fromB toB cs (budget - used)
          with _ | result
        · simp only [hrd]
          exact ih (si + 1) used
        · simp only [hrd, List.map_cons, List.sum_cons]
          have h1 : result.rpc_calls_used ≤ budget - used :=
            runEvmDetector_rpc_le mode (oracleFam si) c fromB toB cs (budget - used)
              result hrd
          have h2 := ih (si + 1) (used + result.rpc_calls_used)
          omega

/-- `_run_hybrid_evm` consumes at most the handed budget. -/
theorem run_hybrid_evm_sum_le (oracleFam : Nat → RpcOracle)
    (c : ContractEntry) (fromB toB cs : Int) (budget : Nat) :
    ((run_hybrid_evm oracleFam c fromB toB cs budget).map Prod.snd).sum ≤ budget := by
  unfold run_hybrid_evm
  split
  · simp
  · simp
  · simpa using hybridSubsLoop_sum_le oracleFam c fromB toB cs budget _ 0 0

/-- The running pair-fold of `_scan_evm_protocol` over hybrid sub-results
adds exactly the recorded call counts. -/
theorem foldl_merge_snd (l : List (DetectionResult × Nat)) :
    ∀ (m : DetectionResult) (t : Nat),
      (l.foldl (fun acc sub => (merge_result acc.1 sub.1, acc.2 + sub.2)) (m, t)).2 =
        t + (l.map Prod.snd).sum := by
  induction l with
  | nil => intro m t; simp
  | cons x xs ih =>
    intro m t
    simp only [List.foldl_cons, List.map_cons, List.sum_cons]
    rw [ih]
    omega

/-- The contract loop of `_scan_evm_protocol` never pushes the running call
count past the protocol budget. -/
theorem evmContractsLoop_rpc_le (oracles : Nat → Nat → RpcOracle)
    (fromB toB cs : Int) (budget : Nat) :
    ∀ (contracts : List ContractEntry) (ci : Nat) (merged : DetectionResult)
      (total : Nat), total ≤ budget →
      (evmContractsLoop oracles fromB toB cs budget contracts ci merged total).2 ≤
        budget := by
  intro contracts
  induction contracts with
  | nil => intro ci merged total htot; exact htot
  | cons c rest ih =>
    intro ci merged total htot
    rw [evmContractsLoop]
    split
    · exact htot
    · rename_i hlt
      cases hdm : c.detection_mode
      case hybrid =>
        simp only [hdm]
        apply ih
        rw [foldl_merge_snd]
        have h1 := run_hybrid_evm_sum_le (oracles ci) c fromB toB cs (budget - total)
        omega
      case program_id_match =>
        simp only [hdm]
        exact ih (ci + 1) merged total htot
      case event_topic =>
        simp only [hdm, runEvmDetector]
        apply ih
        have h1 := eventTopicDetect_rpc_le (oracles ci 0) c fromB toB cs (budget - total)
        omega
      case transfer_to_contract =>
        simp only [hdm, runEvmDetector]
        apply ih
        have h1 := transferToDetect_rpc_le (oracles ci 0) c fromB toB cs (budget - total)
        omega
      case tx_to_contract =>
        simp only [hdm, runEvmDetector]
        apply ih
        have h1 := txToDetect_rpc_le (oracles ci 0) c fromB toB cs (budget - total)
        omega

/-- `_scan_evm_protocol` consumes at most the budget it is allocated. -/
theorem scan_evm_protocol_rpc_le (oracles : Nat → Nat → RpcOracle)
    (p : Protocol) (fromB toB cs : Int) (budget : Nat) :
    (scan_evm_protocol oracles p fromB toB cs budget).2 ≤ budget :=
  evmContractsLoop_rpc_le oracles fromB toB cs budget p.contracts 0 {} 0 (by simp)

/-- The property C1 asserts of each processed-protocol trace entry. -/
def EntryBudgetOk (s : Settings) (e : ScanTraceEntry) : Prop :=
  e.budget = (if e.has_token then min (s.max_rpc_calls_per_scan - e.used_before) 3
    else s.max_rpc_calls_per_scan - e.used_before) ∧
  e.calls ≤ e.budget

/-- The EVM scan loop: the calls attributed to processed protocols fit into
the budget that remained on entry, and every trace entry records the
claim's allocation and respects it. -/
theorem evmScanLoop_budget (env : EvmScanEnv) (s : Settings) (fromB toB : Int) :
    ∀ (protos : List Protocol) (i used : Nat),
      traceCalls (evmScanLoop env s fromB toB protos i used).trace ≤
        s.max_rpc_calls_per_scan - used ∧
      ∀ e ∈ (evmScanLoop env s fromB toB protos i used).trace, EntryBudgetOk s e := by
  intro protos
  induction protos with
  | nil =>
    intro i used
    exact ⟨by simp [evmScanLoop, traceCalls], by simp [evmScanLoop]⟩
  | cons p rest ih =>
    intro i used
    rw [evmScanLoop]
    split
    · exact ⟨by simp [traceCalls], by simp⟩
    · split
      · exact ⟨by simp [traceCalls], by simp⟩
      · rename_i hrpc
        by_cases hp : p.has_token
        · simp only [hp, if_true]
          obtain ⟨iha, ihb⟩ := ih (i + 1)
            (used + (scan_evm_protocol (env.oracles i) p fromB toB
              s.max_log_block_range (min (s.max_rpc_calls_per_scan - used) 3)).2)
          refine ⟨?_, ?_⟩
          · simp only [traceCalls, List.map_cons, List.sum_cons]
            have h1 := scan_evm_protocol_rpc_le (env.oracles i) p fromB toB
              s.max_log_block_range (min (s.max_rpc_calls_per_scan - used) 3)
            simp only [traceCalls] at iha
            omega
          · intro e he
            rcases List.mem_cons.mp he with he | he
            · subst he
              refine ⟨by simp [hp], ?_⟩
              exact scan_evm_protocol_rpc_le (env.oracles i) p fromB toB
                s.max_log_block_range _
            · exact ihb e he
        · simp only [hp, if_false, Bool.false_eq_true]
          obtain ⟨iha, ihb⟩ := ih (i + 1)
            (used + (scan_evm_protocol (env.oracles i) p fromB toB
              s.max_log_block_range (s.max_rpc_calls_per_scan - used)).2)
          refine ⟨?_, ?_⟩
          · simp only [traceCalls, List.map_cons, List.sum_cons]
            have h1 := scan_evm_protocol_rpc_le (env.oracles i) p fromB toB
              s.max_log_block_range (s.max_rpc_calls_per_scan - used)
            simp only [traceCalls] at iha
            omega
          · intro e he
            rcases List.mem_cons.mp he with he | he
            · subst he
              refine ⟨by simp [hp], ?_⟩
              exact scan_evm_protocol_rpc_le (env.oracles i) p fromB toB
                s.max_log_block_range _
            · exact ihb e he

/-- C1: in every EVM scan — any protocol list, any window outcome, any
per-call outcomes — the RPC calls attributed to the per-protocol detections
sum to at most `max_rpc_calls_per_scan`; each protocol's allocation is
`min(remaining, 3)` when it has a token and the full remainder otherwise,
and its consumption never exceeds that allocation. -/
theorem scan_budget_conservation (env : EvmScanEnv) (s : Settings)
    (protocols : List Protocol) :
    traceCalls (scan_wallet_evm env s protocols).trace ≤
      s.max_rpc_calls_per_scan ∧
    ∀ e ∈ (scan_wallet_evm env s protocols).trace, EntryBudgetOk s e := by
  unfold scan_wallet_evm
  rcases env.window with _ | ⟨fromB, toB, windowUsed⟩
  · exact ⟨by simp [traceCalls], by simp⟩
  · have h := evmScanLoop_budget env s fromB toB protocols 0 windowUsed
    exact ⟨le_trans h.1 (by omega), h.2⟩

/-! ### Truncation determinism (C2) -/

theorem traceCalls_cons (e : ScanTraceEntry) (l : List ScanTraceEntry) :
    traceCalls (e :: l) = e.calls + traceCalls l := by
  simp [traceCalls]

/-- Shape of one processed step of the EVM loop: when neither budget trips,
the head protocol contributes one trace entry, and the other output fields
are inherited from the loop on the remaining protocols. -/
theorem evmScanLoop_step (env : EvmScanEnv) (s : Settings) (fromB toB : Int)
    (p : Protocol) (rest : List Protocol) (i used : Nat)
    (h1 : ¬ s.max_scan_seconds ≤ env.elapsed i)
    (h2 : ¬ s.max_rpc_calls_per_scan ≤ used) :
    ∃ e : ScanTraceEntry,
      (evmScanLoop env s fromB toB (p :: rest) i used).trace =
        e :: (evmScanLoop env s fromB toB rest (i + 1) (used + e.calls)).trace ∧
      (evmScanLoop env s fromB toB (p :: rest) i used).skipped =
        (evmScanLoop env s fromB toB rest (i + 1) (used + e.calls)).skipped ∧
      (evmScanLoop env s fromB toB (p :: rest) i used).completeness =
        (evmScanLoop env s fromB toB rest (i + 1) (used + e.calls)).completeness ∧
      (evmScanLoop env s fromB toB (p :: rest) i used).used =
        (evmScanLoop env s fromB toB rest (i + 1) (used + e.calls)).used := by
  refine ⟨{ protocol_id := p.id, has_token := p.has_token, used_before := used,
            budget := (if p.has_token then min (s.max_rpc_calls_per_scan - used) 3
              else s.max_rpc_calls_per_scan - used),
            calls := (scan_evm_protocol (env.oracles i) p fromB toB
              s.max_log_block_range
              (if p.has_token then min (s.max_rpc_calls_per_scan - used) 3
                else s.max_rpc_calls_per_scan - used)).2 }, ?_⟩
  rw [evmScanLoop]
  rw [if_neg h1, if_neg h2]
  split <;> exact ⟨rfl, rfl, rfl, rfl⟩

/-- Full characterization of the EVM per-protocol loop: the skipped list is
exactly the catalog-order suffix after the processed prefix; no budget trips
before any processed protocol; if the loop stopped early, a budget tripped
exactly at the next protocol and completeness is `"partial"`; if it ran to
the end nothing is skipped and completeness is `"full"`; and the final call
counter is the initial one plus the attributed calls. -/
theorem evmScanLoop_truncation (env : EvmScanEnv) (s : Settings)
    (fromB toB : Int) :
    ∀ (protos : List Protocol) (i used : Nat),
      (evmScanLoop env s fromB toB protos i used).trace.length ≤ protos.length ∧
      (evmScanLoop env s fromB toB protos i used).skipped =
        (protos.drop (evmScanLoop env s fromB toB protos i used).trace.length).map
          Protocol.id ∧
      (∀ j < (evmScanLoop env s fromB toB protos i used).trace.length,
        ¬ TripAt env s (i + j)
          (used + traceCalls ((evmScanLoop env s fromB toB protos i used).trace.take j))) ∧
      ((evmScanLoop env s fromB toB protos i used).trace.length < protos.length →
        TripAt env s (i + (evmScanLoop env s fromB toB protos i used).trace.length)
          (used + traceCalls (evmScanLoop env s fromB toB protos i used).trace) ∧
        (evmScanLoop env s fromB toB protos i used).completeness = "partial") ∧
      ((evmScanLoop env s fromB toB protos i used).trace.length = protos.length →
        (evmScanLoop env s fromB toB protos i used).skipped = [] ∧
        (evmScanLoop env s fromB toB protos i used).completeness = "full") ∧
      (evmScanLoop env s fromB toB protos i used).used =
        used + traceCalls (evmScanLoop env s fromB toB protos i used).trace := by
  intro protos
  induction protos with
  | nil =>
    intro i used
    refine ⟨by simp [evmScanLoop], by simp [evmScanLoop], ?_, ?_, ?_, ?_⟩
    · intro j hj
      simp [evmScanLoop] at hj
    · intro hlt
      simp [evmScanLoop] at hlt
    · intro _
      exact ⟨rfl, rfl⟩
    · simp [evmScanLoop, traceCalls]
  | cons p rest ih =>
    intro i used
    by_cases h1 : s.max_scan_seconds ≤ env.elapsed i
    · rw [evmScanLoop, if_pos h1]
      refine ⟨by simp, by simp, ?_, ?_, ?_, ?_⟩
      · intro j hj
        simp at hj
      · intro _
        refine ⟨?_, rfl⟩
        simp only [List.length_nil, Nat.add_zero]
        exact Or.inl (by simpa [traceCalls] using h1)
      · intro hlen
        simp at hlen
      · simp [traceCalls]
    · by_cases h2 : s.max_rpc_calls_per_scan ≤ used
      · rw [evmScanLoop, if_neg h1, if_pos h2]
        refine ⟨by simp, by simp, ?_, ?_, ?_, ?_⟩
        · intro j hj
          simp at hj
        · intro _
          refine ⟨?_, rfl⟩
          simp only [List.length_nil, Nat.add_zero]
          exact Or.inr (by simpa [traceCalls] using h2)
        · intro hlen
          simp at hlen
        · simp [traceCalls]
      · obtain ⟨e, htr, hsk, hcomp, hused⟩ :=
          evmScanLoop_step env s fromB toB p rest i used h1 h2
        obtain ⟨ih1, ih2, ih3, ih4, ih5, ih6⟩ := ih (i + 1) (used + e.calls)
        rw [htr, hsk, hcomp, hused]
        refine ⟨?_, ?_, ?_, ?_, ?_, ?_⟩
        · simpa using ih1
        · simp only [List.length_cons, List.drop_succ_cons]
          exact ih2
        · intro j hj
          cases j with
          | zero =>
            simp only [List.take_zero, traceCalls, List.map_nil, List.sum_nil,
              Nat.add_zero]
            rintro (ha | hb)
            · exact h1 ha
            · exact h2 hb
          | succ j =>
            simp only [List.length_cons, Nat.succ_lt_succ_iff] at hj
            rw [List.take_succ_cons, traceCalls_cons]
            have e3 : i + (j + 1) = i + 1 + j := by omega
            have e4 : used + (e.calls + traceCalls
                ((evmScanLoop env s fromB toB rest (i + 1) (used + e.calls)).trace.take j)) =
              used + e.calls + traceCalls
                ((evmScanLoop env s fromB toB rest (i + 1) (used + e.calls)).trace.take j) := by
              omega
            rw [e3, e4]
            exact ih3 j hj
        · simp only [List.length_cons]
          intro hlt
          obtain ⟨ht, hc⟩ := ih4 (by omega)
          refine ⟨?_, hc⟩
          rw [traceCalls_cons]
          have e3 : i + ((evmScanLoop env s fromB toB rest (i + 1)
              (used + e.calls)).trace.length + 1) =
            i + 1 + (evmScanLoop env s fromB toB rest (i + 1)
              (used + e.calls)).trace.length := by omega
          have e4 : used + (e.calls + traceCalls
              (evmScanLoop env s fromB toB rest (i + 1) (used + e.calls)).trace) =
            used + e.calls + traceCalls
              (evmScanLoop env s fromB toB rest (i + 1) (used + e.calls)).trace := by
            omega
          rw [e3, e4]
          exact ht
        · simp only [List.length_cons]
          intro heq
          exact ih5 (by omega)
        · rw [traceCalls_cons]
          omega

/-- Shape of one processed step of the Solana loop. -/
theorem solanaScanLoop_step (env : SolanaScanEnv) (s : Settings)
    (txs : List ParsedTx) (p : Protocol) (rest : List Protocol) (i : Nat)
    (h1 : ¬ s.max_scan_seconds ≤ env.elapsed i) :
    (solanaScanLoop env s txs (p :: rest) i).processed =
      (solanaScanLoop env s txs rest (i + 1)).processed + 1 ∧
    (solanaScanLoop env s txs (p :: rest) i).skipped =
      (solanaScanLoop env s txs rest (i + 1)).skipped ∧
    (solanaScanLoop env s txs (p :: rest) i).tokenless.length +
        (solanaScanLoop env s txs (p :: rest) i).tokened.length =
      (solanaScanLoop env s txs rest (i + 1)).tokenless.length +
        (solanaScanLoop env s txs rest (i + 1)).tokened.length + 1 := by
  rw [solanaScanLoop]
  rw [if_neg h1]
  split
  · exact ⟨rfl, rfl, by simp; omega⟩
  · exact ⟨rfl, rfl, by simp; omega⟩

/-- Full characterization of the Solana per-protocol loop: skipped ids are
the catalog suffix after the processed prefix, the wall clock had not
tripped before any processed protocol, it tripped exactly at the stopping
point when the loop stopped early, and one signal is built per processed
protocol. -/
theorem solanaScanLoop_truncation (env : SolanaScanEnv) (s : Settings)
    (txs : List ParsedTx) :
    ∀ (protos : List Protocol) (i : Nat),
      (solanaScanLoop env s txs protos i).processed ≤ protos.length ∧
      (solanaScanLoop env s txs protos i).skipped =
        (protos.drop (solanaScanLoop env s txs protos i).processed).map
          Protocol.id ∧
      (∀ j < (solanaScanLoop env s txs protos i).processed,
        ¬ s.max_scan_seconds ≤ env.elapsed (i + j)) ∧
      ((solanaScanLoop env s txs protos i).processed < protos.length →
        s.max_scan_seconds ≤
          env.elapsed (i + (solanaScanLoop env s txs protos i).processed)) ∧
      ((solanaScanLoop env s txs protos i).processed = protos.length →
        (solanaScanLoop env s txs protos i).skipped = []) ∧
      (solanaScanLoop env s txs protos i).tokenless.length +
          (solanaScanLoop env s txs protos i).tokened.length =
        (solanaScanLoop env s txs protos i).processed := by
  intro protos
  induction protos with
  | nil =>
    intro i
    refine ⟨by simp [solanaScanLoop], by simp [solanaScanLoop], ?_, ?_, ?_, ?_⟩
    · intro j hj
      simp [solanaScanLoop] at hj
    · intro hlt
      simp [solanaScanLoop] at hlt
    · intro _
      rfl
    · simp [solanaScanLoop]
  | cons p rest ih =>
    intro i
    by_cases h1 : s.max_scan_seconds ≤ env.elapsed i
    · rw [solanaScanLoop, if_pos h1]
      refine ⟨by simp, by simp, ?_, ?_, ?_, ?_⟩
      · intro j hj
        simp at hj
      · intro _
        simpa using h1
      · intro hlen
        simp at hlen
      · simp
    · obtain ⟨hpr, hsk, hsig⟩ := solanaScanLoop_step env s txs p rest i h1
      obtain ⟨ih1, ih2, ih3, ih4, ih5, ih6⟩ := ih (i + 1)
      rw [hpr, hsk, hsig]
      refine ⟨by simpa using ih1, ?_, ?_, ?_, ?_, by omega⟩
      · simp only [List.drop_succ_cons]
        exact ih2
      · intro j hj
        cases j with
        | zero => simpa using h1
        | succ j =>
          have e3 : i + (j + 1) = i + 1 + j := by omega
          rw [e3]
          exact ih3 j (by omega)
      · simp only [List.length_cons]
        intro hlt
        have e3 : i + ((solanaScanLoop env s txs rest (i + 1)).processed + 1) =
            i + 1 + (solanaScanLoop env s txs rest (i + 1)).processed := by omega
        rw [e3]
        exact ih4 (by omega)
      · simp only [List.length_cons]
        intro heq
        exact ih5 (by omega)

/-- On a resolved window, `scan_wallet`'s control outputs are those of the
per-protocol loop (the date conversion touches only signal markers). -/
theorem scan_wallet_evm_proj (env : EvmScanEnv) (s : Settings)
    (protocols : List Protocol) (fromB toB : Int) (windowUsed : Nat)
    (hw : env.window = some (fromB, toB, windowUsed)) :
    (scan_wallet_evm env s protocols).trace =
      (evmScanLoop env s fromB toB protocols 0 windowUsed).trace ∧
    (scan_wallet_evm env s protocols).skipped =
      (evmScanLoop env s fromB toB protocols 0 windowUsed).skipped ∧
    (scan_wallet_evm env s protocols).completeness =
      (evmScanLoop env s fromB toB protocols 0 windowUsed).completeness := by
  unfold scan_wallet_evm
  rw [hw]
  exact ⟨rfl, rfl, rfl⟩

/-- With a successful fetch and a non-empty signature list,
`_scan_solana_protocols`' control outputs are those of the per-protocol
loop (completeness additionally floors at the parse-degradation value). -/
theorem scan_solana_proj (env : SolanaScanEnv) (s : Settings)
    (protocols : List Protocol) (sigResults : List SigEntry)
    (hf : env.fetch = some sigResults) (hne : ¬ (solanaSigIds sigResults).isEmpty) :
    (scan_solana_protocols env s protocols).processed =
      (solanaScanLoop env s
        (parse_solana_transactions env s (solanaSigIds sigResults)).1 protocols
        0).processed ∧
    (scan_solana_protocols env s protocols).skipped =
      (solanaScanLoop env s
        (parse_solana_transactions env s (solanaSigIds sigResults)).1 protocols
        0).skipped ∧
    (scan_solana_protocols env s protocols).tokenless.length =
      (solanaScanLoop env s
        (parse_solana_transactions env s (solanaSigIds sigResults)).1 protocols
        0).tokenless.length ∧
    (scan_solana_protocols env s protocols).tokened =
      (solanaScanLoop env s
        (parse_solana_transactions env s (solanaSigIds sigResults)).1 protocols
        0).tokened ∧
    (scan_solana_protocols env s protocols).completeness =
      (if (solanaScanLoop env s
            (parse_solana_transactions env s (solanaSigIds sigResults)).1 protocols
            0).skipped.isEmpty then
        (if 0 < (parse_solana_transactions env s (solanaSigIds sigResults)).2 ∧
            (solanaSigIds sigResults).length ≤
              2 * (parse_solana_transactions env s (solanaSigIds sigResults)).2 then
          "partial" else "full")
      else "partial") := by
  simp only [Bool.not_eq_true] at hne
  simp only [scan_solana_protocols, hf, hne, Bool.false_eq_true, if_false]
  simp [List.length_map]

/-- C2: on both chains the budgets are checked before each protocol in
catalog order.  On EVM (window resolved) no budget trips before any
processed protocol; if the loop stopped with protocol index `i` next, a
budget had tripped at `i` (wall clock, or calls consumed so far including
window resolution), the skipped list is exactly the ids of
`protocols[i..end]` and completeness is `"partial"`; a completed loop skips
nothing and reports `"full"`.  On Solana (signatures fetched, non-empty)
the same holds with only the wall clock checked. -/
theorem truncation_determinism :
    (∀ (env : EvmScanEnv) (s : Settings) (protocols : List Protocol)
      (fromB toB : Int) (windowUsed : Nat),
      env.window = some (fromB, toB, windowUsed) →
      (scan_wallet_evm env s protocols).trace.length ≤ protocols.length ∧
      (scan_wallet_evm env s protocols).skipped =
        (protocols.drop (scan_wallet_evm env s protocols).trace.length).map
          Protocol.id ∧
      (∀ j < (scan_wallet_evm env s protocols).trace.length,
        ¬ TripAt env s j
          (usedBefore windowUsed (scan_wallet_evm env s protocols).trace j)) ∧
      ((scan_wallet_evm env s protocols).trace.length < protocols.length →
        TripAt env s (scan_wallet_evm env s protocols).trace.length
          (windowUsed + traceCalls (scan_wallet_evm env s protocols).trace) ∧
        (scan_wallet_evm env s protocols).completeness = "partial") ∧
      ((scan_wallet_evm env s protocols).trace.length = protocols.length →
        (scan_wallet_evm env s protocols).skipped = [] ∧
        (scan_wallet_evm env s protocols).completeness = "full")) ∧
    (∀ (env : SolanaScanEnv) (s : Settings) (protocols : List Protocol)
      (sigResults : List SigEntry),
      env.fetch = some sigResults → ¬ (solanaSigIds sigResults).isEmpty →
      (scan_solana_protocols env s protocols).processed ≤ protocols.length ∧
      (scan_solana_protocols env s protocols).skipped =
        (protocols.drop (scan_solana_protocols env s protocols).processed).map
          Protocol.id ∧
      (∀ j < (scan_solana_protocols env s protocols).processed,
        ¬ s.max_scan_seconds ≤ env.elapsed j) ∧
      ((scan_solana_protocols env s protocols).processed < protocols.length →
        s.max_scan_seconds ≤
          env.elapsed (scan_solana_protocols env s protocols).processed ∧
        (scan_solana_protocols env s protocols).completeness = "partial")) := by
  constructor
  · intro env s protocols fromB toB windowUsed hw
    obtain ⟨htr, hsk, hcomp⟩ :=
      scan_wallet_evm_proj env s protocols fromB toB windowUsed hw
    obtain ⟨l1, l2, l3, l4, l5, _⟩ :=
      evmScanLoop_truncation env s fromB toB protocols 0 windowUsed
    rw [htr, hsk, hcomp]
    refine ⟨l1, l2, ?_, ?_, l5⟩
    · intro j hj
      have h := l3 j hj
      simpa [usedBefore] using h
    · intro hlt
      have h := l4 hlt
      simpa using h
  · intro env s protocols sigResults hf hne
    obtain ⟨hpr, hsk, _, _, hcomp⟩ :=
      scan_solana_proj env s protocols sigResults hf hne
    obtain ⟨l1, l2, l3, l4, l5, _⟩ :=
      solanaScanLoop_truncation env s
        (parse_solana_transactions env s (solanaSigIds sigResults)).1 protocols 0
    rw [hpr, hsk, hcomp]
    refine ⟨l1, l2, ?_, ?_⟩
    · intro j hj
      simpa using l3 j hj
    · intro hlt
      refine ⟨by simpa using l4 hlt, ?_⟩
      have hskne : ¬ (solanaScanLoop env s
          (parse_solana_transactions env s (solanaSigIds sigResults)).1 protocols
          0).skipped.isEmpty := by
        rw [l2]
        have : (protocols.drop (solanaScanLoop env s
            (parse_solana_transactions env s (solanaSigIds sigResults)).1 protocols
            0).processed) ≠ [] := by
          intro hdrop
          have := List.drop_eq_nil_iff.mp hdrop
          omega
        simpa using this
      simp only [Bool.not_eq_true] at hskne
      rw [hskne]
      simp

/-- Witness for C2 at a concrete scan whose wall clock trips before the
second of two protocols. -/
theorem truncation_determinism_witness :
    (scan_wallet_evm evmTripEnv defaultSettings twoProtocols).skipped =
      (twoProtocols.drop
        (scan_wallet_evm evmTripEnv defaultSettings twoProtocols).trace.length).map
        Protocol.id ∧
    ((scan_wallet_evm evmTripEnv defaultSettings twoProtocols).trace.length <
        twoProtocols.length →
      TripAt evmTripEnv defaultSettings
        (scan_wallet_evm evmTripEnv defaultSettings twoProtocols).trace.length
        (0 + traceCalls (scan_wallet_evm evmTripEnv defaultSettings
          twoProtocols).trace) ∧
      (scan_wallet_evm evmTripEnv defaultSettings twoProtocols).completeness =
        "partial") ∧
    (scan_solana_protocols solTripEnv defaultSettings twoProtocols).skipped =
      (twoProtocols.drop
        (scan_solana_protocols solTripEnv defaultSettings twoProtocols).processed).map
        Protocol.id := by
  have h1 := truncation_determinism.1 evmTripEnv defaultSettings twoProtocols
    0 10 0 rfl
  have h2 := truncation_determinism.2 solTripEnv defaultSettings twoProtocols
    [{ signature := some "s1" }] rfl (by decide)
  exact ⟨h1.2.1, h1.2.2.2.1, h2.2.1⟩

/-! ### Resolution failure (C3), parse degradation (C9), empty wallet (C10) -/

/-- C3: when window resolution (EVM) or the signature fetch (Solana)
raises, the scan returns completeness `"error"`, no signals of either kind,
and every protocol id skipped; the trace/processed/parse ghost fields are
empty, so no per-protocol detection and no parsing ran. -/
theorem resolution_failure_shortcircuit :
    (∀ (env : EvmScanEnv) (s : Settings) (protocols : List Protocol),
      env.window = none →
      scan_wallet_evm env s protocols =
        { tokenless := [], tokened := [], completeness := "error"
          skipped := protocols.map Protocol.id, trace := [], rpc_used := 0 }) ∧
    (∀ (env : SolanaScanEnv) (s : Settings) (protocols : List Protocol),
      env.fetch = none →
      scan_solana_protocols env s protocols =
        { tokenless := [], tokened := [], completeness := "error"
          skipped := protocols.map Protocol.id, processed := 0
          parse_ran := false }) := by
  constructor
  · intro env s protocols hw
    unfold scan_wallet_evm
    rw [hw]
  · intro env s protocols hf
    unfold scan_solana_protocols
    rw [hf]

/-- Witness for C3 at concrete failing environments. -/
theorem resolution_failure_shortcircuit_witness :
    scan_wallet_evm evmErrEnv defaultSettings twoProtocols =
      { tokenless := [], tokened := [], completeness := "error"
        skipped := ["a", "b"], trace := [], rpc_used := 0 } ∧
    scan_solana_protocols solErrEnv defaultSettings twoProtocols =
      { tokenless := [], tokened := [], completeness := "error"
        skipped := ["a", "b"], processed := 0, parse_ran := false } := by
  constructor
  · rw [resolution_failure_shortcircuit.1 evmErrEnv defaultSettings twoProtocols rfl]
    rfl
  · rw [resolution_failure_shortcircuit.2 solErrEnv defaultSettings twoProtocols rfl]
    rfl

/-- C9: a Solana scan whose fetch succeeded with a non-empty signature list
and in which at least half of the signatures failed to parse even after the
raw fallback still completes — every protocol is either processed into a
signal or reported skipped — but its completeness is `"partial"`, whether
or not any protocol was skipped. -/
theorem parse_degradation_downgrades_completeness (env : SolanaScanEnv) (s : Settings)
    (protocols : List Protocol) (sigResults : List SigEntry)
    (hf : env.fetch = some sigResults)
    (hne : ¬ (solanaSigIds sigResults).isEmpty)
    (hfail : (solanaSigIds sigResults).length ≤
      2 * (parse_solana_transactions env s (solanaSigIds sigResults)).2) :
    (scan_solana_protocols env s protocols).completeness = "partial" ∧
    (scan_solana_protocols env s protocols).tokenless.length +
        (scan_solana_protocols env s protocols).tokened.length +
        (scan_solana_protocols env s protocols).skipped.length =
      protocols.length := by
  obtain ⟨hpr, hsk, htl, htk, hcomp⟩ :=
    scan_solana_proj env s protocols sigResults hf hne
  obtain ⟨l1, l2, l3, l4, l5, l6⟩ :=
    solanaScanLoop_truncation env s
      (parse_solana_transactions env s (solanaSigIds sigResults)).1 protocols 0
  have hles : 0 < (parse_solana_transactions env s (solanaSigIds sigResults)).2 := by
    have hlen : 0 < (solanaSigIds sigResults).length := by
      rcases h : solanaSigIds sigResults with _ | ⟨x, xs⟩
      · rw [h] at hne
        simp at hne
      · simp
    omega
  constructor
  · rw [hcomp]
    split
    · rw [if_pos (And.intro hles hfail)]
    · rfl
  · rw [htl, htk, hsk, l2]
    simp only [List.length_map, List.length_drop]
    omega

/-- Witness for C9: two fetched signatures, Helius unavailable, both raw
fetches fail — the scan is `"partial"` though nothing was skipped. -/
theorem parse_degradation_downgrades_completeness_witness :
    (scan_solana_protocols solParseFailEnv defaultSettings
      twoProtocols).completeness = "partial" ∧
    (scan_solana_protocols solParseFailEnv defaultSettings
        twoProtocols).tokenless.length +
      (scan_solana_protocols solParseFailEnv defaultSettings
        twoProtocols).tokened.length +
      (scan_solana_protocols solParseFailEnv defaultSettings
        twoProtocols).skipped.length = twoProtocols.length := by
  exact parse_degradation_downgrades_completeness solParseFailEnv defaultSettings twoProtocols
    [{ signature := some "s1" }, { signature := some "s2" }] rfl (by decide)
    (by decide)

/-- Your protocols split by token flag account for every protocol. -/
theorem filter_token_split (protocols : List Protocol) :
    ((protocols.filter (fun p => !p.has_token)).map
      (fun p => build_tokenless_signal p {})).length +
    ((protocols.filter (fun p => p.has_token)).map
      (fun p => build_tokened_signal p {})).length = protocols.length := by
  simp only [List.length_map]
  have h := List.length_eq_length_filter_add (l := protocols)
    (fun p => p.has_token)
  omega

/-- C10: a Solana scan whose fetch succeeds with zero usable signatures
builds one empty signal per protocol (tokenless or tokened according to
`has_token`, with `interacted = false`, count 0, no markers, no types),
reports completeness `"full"` with nothing skipped, and performs no
transaction parsing and no per-protocol detection. -/
theorem empty_wallet_solana (env : SolanaScanEnv) (s : Settings)
    (protocols : List Protocol) (sigResults : List SigEntry)
    (hf : env.fetch = some sigResults)
    (he : solanaSigIds sigResults = []) :
    scan_solana_protocols env s protocols =
      { tokenless := (protocols.filter (fun p => !p.has_token)).map
          (fun p => build_tokenless_signal p {})
        tokened := (protocols.filter (fun p => p.has_token)).map
          (fun p => build_tokened_signal p {})
        completeness := "full", skipped := [], processed := 0
        parse_ran := false } ∧
    (∀ sig ∈ (scan_solana_protocols env s protocols).tokenless,
      sig.interacted = false ∧ sig.interaction_count = 0 ∧
      sig.first_seen = none ∧ sig.last_seen = none ∧ sig.signal_types = []) ∧
    (∀ sig ∈ (scan_solana_protocols env s protocols).tokened,
      sig.interacted = false) ∧
    (scan_solana_protocols env s protocols).tokenless.length +
      (scan_solana_protocols env s protocols).tokened.length =
      protocols.length := by
  have hmain : scan_solana_protocols env s protocols =
      { tokenless := (protocols.filter (fun p => !p.has_token)).map
          (fun p => build_tokenless_signal p {})
        tokened := (protocols.filter (fun p => p.has_token)).map
          (fun p => build_tokened_signal p {})
        completeness := "full", skipped := [], processed := 0
        parse_ran := false } := by
    unfold scan_solana_protocols
    rw [hf]
    simp only [he, List.isEmpty_nil, if_true]
  refine ⟨hmain, ?_, ?_, ?_⟩
  · intro sig hsig
    rw [hmain] at hsig
    simp only [List.mem_map] at hsig
    obtain ⟨p, _, hp⟩ := hsig
    subst hp
    exact ⟨rfl, rfl, rfl, rfl, rfl⟩
  · intro sig hsig
    rw [hmain] at hsig
    simp only [List.mem_map] at hsig
    obtain ⟨p, _, hp⟩ := hsig
    subst hp
    rfl
  · rw [hmain]
    exact filter_token_split protocols

/-- Witness for C10 at a concrete empty-signature fetch over two
protocols. -/
theorem empty_wallet_solana_witness :
    scan_solana_protocols solEmptyEnv defaultSettings twoProtocols =
      { tokenless := (twoProtocols.filter (fun p => !p.has_token)).map
          (fun p => build_tokenless_signal p {})
        tokened := (twoProtocols.filter (fun p => p.has_token)).map
          (fun p => build_tokened_signal p {})
        completeness := "full", skipped := [], processed := 0
        parse_ran := false } ∧
    (scan_solana_protocols solEmptyEnv defaultSettings
        twoProtocols).tokenless.length +
      (scan_solana_protocols solEmptyEnv defaultSettings
        twoProtocols).tokened.length = twoProtocols.length := by
  have h := empty_wallet_solana solEmptyEnv defaultSettings twoProtocols []
    rfl (by decide)
  exact ⟨h.1, h.2.2.2⟩

end AirdropScanner